import Mathlib

/-!
A shallow embedding in Lean 4 of the core of this Mbed TLS fragment:

* `library/bignum_mod.c` — the modular residue substrate (modulus setup and
  free, residue binding);
* `library/psa_crypto_pake.c` — the PSA PAKE (EC-JPAKE) streaming state
  machine.

Machine integers are modelled as `Nat`; limb buffers and byte buffers as
`List Nat` (little-endian limb order for bignums, index order for the PAKE
staging buffer).  External collaborators (the EC-JPAKE engine, the key
store, the RNG, the raw bignum kernels) are modelled as explicit oracle
records passed to each operation; their documented contracts are stated as
hypotheses where a theorem needs them.  Pointer validity (NULL checks) is
outside the memory-less model; every other guard of the C code is kept.
-/

set_option autoImplicit false
set_option maxRecDepth 8192

namespace MbedSpec

/-! ## Bignum: values and external kernels -/

/-- Limb radix: one `mbedtls_mpi_uint` machine word, modelled as 64 bits. -/
def limbRadix : Nat := 2 ^ 64

/-- Numerical value of a little-endian limb vector. -/
def limbsVal : List Nat → Nat
  | [] => 0
  | d :: rest => d + limbRadix * limbsVal rest

/-- Modelled from the spec: `mbedtls_mpi_core_lt_ct` (bignum_core.c, not under
src/) is the constant-time strict less-than comparator: it returns 1 exactly
when `A < B`, both read as `limbs`-length little-endian limb integers (spec
§4.1.2 "constant time" comparator; upstream documents the result as "1 if A is
less than B").  Reading past the end of a vector is modelled as zero limbs. -/
def mbedtls_mpi_core_lt_ct (A B : List Nat) (limbs : Nat) : Bool :=
  limbsVal (A.takeD limbs 0) < limbsVal (B.takeD limbs 0)

/-- Modelled from the spec: `mbedtls_mpi_core_bitlen` (bignum_core.c, not under
src/) returns the 1-based position of the highest set bit (spec §3.1:
`bit_length` is the "position of highest set bit of p (0-based + 1)"). -/
def mbedtls_mpi_core_bitlen (p : List Nat) (limbs : Nat) : Nat :=
  Nat.size (limbsVal (p.takeD limbs 0))

/-- C entity `MBEDTLS_MPI_MAX_LIMBS` (mbedtls/bignum.h, not under src/). -/
def MBEDTLS_MPI_MAX_LIMBS : Nat := 10000

/-- C entity `MBEDTLS_ERR_MPI_BAD_INPUT_DATA` (-0x0004). -/
def MBEDTLS_ERR_MPI_BAD_INPUT_DATA : Int := -4

/-- C entity `MBEDTLS_ERR_ERROR_CORRUPTION_DETECTED` (-0x006E). -/
def MBEDTLS_ERR_ERROR_CORRUPTION_DETECTED : Int := -110

/-! ## Bignum: data model (`bignum_mod.h` structures as used by bignum_mod.c) -/

/-- C entity `mbedtls_mpi_mod_ext_rep`. -/
inductive ExtRep where
  | INVALID | LE | BE
deriving DecidableEq

/-- C entity `mbedtls_mpi_mod_rep_selector`: the selector argument of modulus setup. -/
inductive RepSelector where
  | INVALID | MONTGOMERY | OPT_RED
deriving DecidableEq

/-- The tagged union `int_rep` + `rep` of `mbedtls_mpi_mod_modulus`, expressed
as a sum discriminated by the tag (the inactive arm of the union is junk in C, so
nothing is lost).  `mont` carries `mm` and the owned `rr` vector (`none` =
NULL); `ored` carries the opaque optional-reduction pointer. -/
inductive ModRep where
  | invalid
  | mont (mm : Nat) (rr : Option (List Nat))
  | ored (o : Option Nat)
deriving DecidableEq

/-- C entity `mbedtls_mpi_mod_modulus`.  `p = none` models a NULL `p` pointer;
`some l` models a pointer to the caller-owned limb vector `l`. -/
structure Modulus where
  p : Option (List Nat)
  limbs : Nat
  bits : Nat
  ext_rep : ExtRep
  rep : ModRep
deriving DecidableEq

/-- C entity `mbedtls_mpi_mod_residue`. -/
structure Residue where
  p : List Nat
  limbs : Nat
deriving DecidableEq

/-- C entity `mbedtls_mpi_mod_modulus_init`: the all-sentinel modulus. -/
def mbedtls_mpi_mod_modulus_init : Modulus :=
  { p := none, limbs := 0, bits := 0, ext_rep := .INVALID, rep := .invalid }

/-- Size in bytes of one `mbedtls_mpi_uint` limb (64-bit limbs). -/
def limbBytes : Nat := 8

/-- Modelled from the spec: `mbedtls_platform_zeroize(buf, len)`
(platform_util.c, not under src/) overwrites the first `len` BYTES of `buf`
with zeros (spec §5 "secret hygiene"; `len` is the upstream `size_t` byte
count).  On a little-endian limb vector this zeroizes the first
`len / limbBytes` limbs and the low `len % limbBytes` bytes of the following
limb, leaving the rest untouched. -/
def mbedtls_platform_zeroize (buf : List Nat) (len : Nat) : List Nat :=
  buf.mapIdx fun i v =>
    if (i + 1) * limbBytes ≤ len then 0
    else if i * limbBytes < len then v - v % 2 ^ (8 * (len - i * limbBytes))
    else v

/-- C entity `mbedtls_mpi_mod_modulus_free`.  Besides the freed modulus it returns the
trace of owned buffers that were released (`rr` in the Montgomery case), each
recorded with its contents at the moment of `mbedtls_free`.  Note that the C
passes `m->limbs` — the limb count — as the byte-length argument of
`mbedtls_platform_zeroize`, so only the first `m->limbs` bytes of the
`m->limbs * limbBytes`-byte vector are cleared before the release. -/
def mbedtls_mpi_mod_modulus_free (m : Modulus) : Modulus × List (List Nat) :=
  let trace : List (List Nat) :=
    match m.rep with
    | .mont _ (some v) => [mbedtls_platform_zeroize v m.limbs]
    | _ => []
  ({ p := none, limbs := 0, bits := 0, ext_rep := .INVALID, rep := .invalid }, trace)

/-- Oracle for the external bignum kernels used by Montgomery setup:
`mbedtls_mpi_core_montmul_init` (deterministic word, value opaque here) and
`mbedtls_mpi_core_get_mont_r2_unsafe` (`none` = nonzero return). -/
structure ModSetupEnv where
  mm : Nat
  r2 : Option (List Nat)

/-- C entity `set_mont_const_square` (bignum_mod.c:103).  Returns the C status and the
value stored through `*X` (`none` = NULL). -/
def set_mont_const_square (env : ModSetupEnv) (A : Option (List Nat))
    (limbs : Nat) : Int × Option (List Nat) :=
  if A = none ∨ limbs = 0 ∨ MBEDTLS_MPI_MAX_LIMBS / 2 - 2 ≤ limbs then
    (MBEDTLS_ERR_ERROR_CORRUPTION_DETECTED, none)
  else
    match env.r2 with
    | some rr => (0, some rr)
    | none => (MBEDTLS_ERR_ERROR_CORRUPTION_DETECTED, none)

/-- C entity `mbedtls_mpi_mod_modulus_setup` (bignum_mod.c:138).  Third component: the
zeroize-and-release trace of the `mbedtls_mpi_mod_modulus_free` call performed
on the error paths. -/
def mbedtls_mpi_mod_modulus_setup (env : ModSetupEnv) (m0 : Modulus)
    (p : List Nat) (p_limbs : Nat) (ext_rep : ExtRep) (int_rep : RepSelector) :
    Int × Modulus × List (List Nat) :=
  let m1 : Modulus :=
    { m0 with p := some p, limbs := p_limbs,
              bits := mbedtls_mpi_core_bitlen p p_limbs }
  match ext_rep with
  | .INVALID =>
      let fr := mbedtls_mpi_mod_modulus_free m1
      (MBEDTLS_ERR_MPI_BAD_INPUT_DATA, fr.1, fr.2)
  | _ =>
      let m2 : Modulus := { m1 with ext_rep := ext_rep }
      match int_rep with
      | .MONTGOMERY =>
          let sq := set_mont_const_square env m2.p m2.limbs
          let m3 : Modulus := { m2 with rep := .mont env.mm sq.2 }
          if sq.1 ≠ 0 then
            let fr := mbedtls_mpi_mod_modulus_free m3
            (sq.1, fr.1, fr.2)
          else
            (0, m3, [])
      | .OPT_RED =>
          (0, { m2 with rep := .ored none }, [])
      | .INVALID =>
          let fr := mbedtls_mpi_mod_modulus_free m2
          (MBEDTLS_ERR_MPI_BAD_INPUT_DATA, fr.1, fr.2)

/-- C entity `mbedtls_mpi_mod_residue_setup` (bignum_mod.c:37). -/
def mbedtls_mpi_mod_residue_setup (m : Modulus) (p : List Nat)
    (p_limbs : Nat) : Except Int Residue :=
  if p_limbs < m.limbs ∨ ¬ mbedtls_mpi_core_lt_ct (m.p.getD []) p p_limbs then
    .error MBEDTLS_ERR_MPI_BAD_INPUT_DATA
  else
    .ok { limbs := m.limbs, p := p }

/-! ## PSA PAKE: constants and enums

The PSA constants below live in the PSA crypto headers, which are not under
src/; their values are modelled from the upstream headers and the spec.  Only
their distinctness matters to the code. -/

/-- C entity `PSA_PAKE_BUFFER_SIZE` (psa/crypto_struct.h, not under src/): fixed
capacity of the staging buffer, spec §6.2. -/
def PSA_PAKE_BUFFER_SIZE : Nat := 336

/-- A fully zeroized staging buffer (`mbedtls_platform_zeroize` applied to the
whole fixed-size array `operation->buffer`). -/
def pakeZeroBuffer : List Nat := List.replicate PSA_PAKE_BUFFER_SIZE 0

/-- PSA algorithm identifiers, abstracted to the classes the code tests:
`PSA_ALG_NONE`, `PSA_ALG_JPAKE`, some other PAKE algorithm, `PSA_ALG_SHA_256`,
some other hash algorithm, and a non-PAKE/non-hash algorithm. -/
inductive Alg where
  | NONE | JPAKE | OTHER_PAKE | SHA_256 | OTHER_HASH | OTHER_ALG
deriving DecidableEq

/-- C entity `PSA_ALG_IS_PAKE`. -/
def PSA_ALG_IS_PAKE : Alg → Bool
  | .JPAKE | .OTHER_PAKE => true
  | _ => false

/-- C entity `PSA_ALG_IS_HASH`. -/
def PSA_ALG_IS_HASH : Alg → Bool
  | .SHA_256 | .OTHER_HASH => true
  | _ => false

def PSA_PAKE_PRIMITIVE_TYPE_ECC : Nat := 0x01
def PSA_PAKE_PRIMITIVE_TYPE_DH : Nat := 0x02
def PSA_ECC_FAMILY_SECP_R1 : Nat := 0x12

def PSA_PAKE_ROLE_NONE : Nat := 0x00
def PSA_PAKE_ROLE_FIRST : Nat := 0x01
def PSA_PAKE_ROLE_SECOND : Nat := 0x02
def PSA_PAKE_ROLE_CLIENT : Nat := 0x11
def PSA_PAKE_ROLE_SERVER : Nat := 0x12

/-- Public I/O steps (`psa_pake_step_t`). -/
def PSA_PAKE_STEP_KEY_SHARE : Nat := 0x01
def PSA_PAKE_STEP_ZK_PUBLIC : Nat := 0x02
def PSA_PAKE_STEP_ZK_PROOF : Nat := 0x03

def PSA_KEY_TYPE_PASSWORD : Nat := 0x1203
def PSA_KEY_TYPE_PASSWORD_HASH : Nat := 0x1205
def PSA_KEY_USAGE_DERIVE : Nat := 0x4000
def MBEDTLS_SVC_KEY_ID_INIT : Nat := 0

/-- C entity `enum psa_pake_step` (psa_crypto_pake.c:81), the coarse round pointer. -/
inductive PakeRoundStep where
  | STEP_INVALID | STEP_X1_X2 | STEP_X2S | STEP_DERIVE
deriving DecidableEq

/-- Increment `operation->output_step++` / `input_step++`: numeric successor on the
round pointer.  The C code only ever increments `STEP_X1_X2` or `STEP_X2S`
(the round-end advance is guarded by the dispatch from READY); the
`STEP_DERIVE` case is unreachable and mapped to itself. -/
def roundStepNext : PakeRoundStep → PakeRoundStep
  | .STEP_INVALID => .STEP_X1_X2
  | .STEP_X1_X2 => .STEP_X2S
  | .STEP_X2S => .STEP_DERIVE
  | .STEP_DERIVE => .STEP_DERIVE

/-- C entity `enum psa_pake_state` (psa_crypto_pake.c:89). -/
inductive PakeState where
  | INVALID | SETUP | READY | OUTPUT_X1_X2 | OUTPUT_X2S | INPUT_X1_X2 | INPUT_X4S
deriving DecidableEq

/-- C entity `enum psa_pake_sequence` (psa_crypto_pake.c:161). -/
inductive PakeSeq where
  | SEQ_INVALID
  | X1_KEY_SHARE | X1_ZK_PUBLIC | X1_ZK_PROOF
  | X2_KEY_SHARE | X2_ZK_PUBLIC | X2_ZK_PROOF
  | SEQ_END
deriving DecidableEq

/-- Increment `operation->sequence++`: numeric successor on the sequence enum.  The C
code only increments values `X1_KEY_SHARE .. X2_ZK_PUBLIC` (the `ZK_PROOF`
round ends are handled separately); `SEQ_END` is unreachable and mapped to
itself. -/
def seqNext : PakeSeq → PakeSeq
  | .SEQ_INVALID => .X1_KEY_SHARE
  | .X1_KEY_SHARE => .X1_ZK_PUBLIC
  | .X1_ZK_PUBLIC => .X1_ZK_PROOF
  | .X1_ZK_PROOF => .X2_KEY_SHARE
  | .X2_KEY_SHARE => .X2_ZK_PUBLIC
  | .X2_ZK_PUBLIC => .X2_ZK_PROOF
  | .X2_ZK_PROOF => .SEQ_END
  | .SEQ_END => .SEQ_END

/-- PSA status codes surfaced by this code (psa/crypto_values.h, not under
src/). `OtherError` stands for any further status an external call might
return. -/
inductive PsaStatus where
  | Success | GenericError | NotSupported | NotPermitted | InvalidArgument
  | BadState | BufferTooSmall | InsufficientMemory | DataCorrupt | DataInvalid
  | CorruptionDetected | DoesNotExist | OtherError
deriving DecidableEq

/-- Engine error constants (mbedtls error headers, not under src/). -/
def MBEDTLS_ERR_ECP_BAD_INPUT_DATA : Int := -0x4F80
def MBEDTLS_ERR_ECP_INVALID_KEY : Int := -0x4C80
def MBEDTLS_ERR_ECP_VERIFY_FAILED : Int := -0x4E00
def MBEDTLS_ERR_MPI_BUFFER_TOO_SMALL : Int := -0x0008
def MBEDTLS_ERR_ECP_BUFFER_TOO_SMALL : Int := -0x4980
def MBEDTLS_ERR_MD_FEATURE_UNAVAILABLE : Int := -0x5080

/-- C entity `mbedtls_ecjpake_to_psa_error` (psa_crypto_pake.c:174). -/
def mbedtls_ecjpake_to_psa_error (ret : Int) : PsaStatus :=
  if ret = MBEDTLS_ERR_MPI_BAD_INPUT_DATA ∨ ret = MBEDTLS_ERR_ECP_BAD_INPUT_DATA ∨
     ret = MBEDTLS_ERR_ECP_INVALID_KEY ∨ ret = MBEDTLS_ERR_ECP_VERIFY_FAILED then
    .DataInvalid
  else if ret = MBEDTLS_ERR_MPI_BUFFER_TOO_SMALL ∨
          ret = MBEDTLS_ERR_ECP_BUFFER_TOO_SMALL then
    .BufferTooSmall
  else if ret = MBEDTLS_ERR_MD_FEATURE_UNAVAILABLE then
    .NotSupported
  else if ret = MBEDTLS_ERR_ERROR_CORRUPTION_DETECTED then
    .CorruptionDetected
  else
    .GenericError

/-! ## PSA PAKE: data model -/

/-- C entity `psa_pake_operation_t`.  `ctx_init` models whether the opaque engine
context (`operation->ctx.ecjpake`) is currently initialized.  `buffer` is the
fixed-capacity staging array (capacity `PSA_PAKE_BUFFER_SIZE`). -/
structure PakeOp where
  alg : Alg
  state : PakeState
  sequence : PakeSeq
  input_step : PakeRoundStep
  output_step : PakeRoundStep
  role : Nat
  password : Nat
  ctx_init : Bool
  buffer : List Nat
  buffer_length : Nat
  buffer_offset : Nat
deriving DecidableEq

/-- C entity `PSA_PAKE_OPERATION_INIT`: the zero-initialized handle. -/
def PSA_PAKE_OPERATION_INIT : PakeOp :=
  { alg := .NONE, state := .INVALID, sequence := .SEQ_INVALID,
    input_step := .STEP_INVALID, output_step := .STEP_INVALID,
    role := PSA_PAKE_ROLE_NONE, password := MBEDTLS_SVC_KEY_ID_INIT,
    ctx_init := false, buffer := pakeZeroBuffer,
    buffer_length := 0, buffer_offset := 0 }

/-- C entity `psa_pake_cipher_suite_t`. -/
structure CipherSuite where
  algorithm : Alg
  ptype : Nat
  family : Nat
  bits : Nat
  hash : Alg
deriving DecidableEq

/-- Write `data` into `buf` starting at `off` (a bounded `memcpy` into the
fixed-size staging array: bytes beyond the capacity cannot be written; every
in-contract call site stays within bounds). -/
def listWrite (buf : List Nat) (off : Nat) (data : List Nat) : List Nat :=
  (buf.take off ++ data ++ buf.drop (off + data.length)).take buf.length

/-- The slice `buf[off .. off+len)` copied out by `memcpy` in `psa_pake_output`. -/
def sliceAt (buf : List Nat) (off len : Nat) : List Nat :=
  (buf.drop off).take len

/-! ## PSA PAKE: operations -/

/-- C entity `psa_pake_abort` (psa_crypto_pake.c:813). -/
def psa_pake_abort (op : PakeOp) : PsaStatus × PakeOp :=
  if op.alg = .NONE then
    (.Success, op)
  else
    let op1 := if op.alg = .JPAKE then
        { op with input_step := .STEP_INVALID, output_step := .STEP_INVALID,
                  password := MBEDTLS_SVC_KEY_ID_INIT, role := PSA_PAKE_ROLE_NONE,
                  buffer := pakeZeroBuffer, buffer_length := 0, buffer_offset := 0,
                  ctx_init := false }
      else op
    (.Success, { op1 with alg := .NONE, state := .INVALID, sequence := .SEQ_INVALID })

/-- C entity `psa_pake_setup` (psa_crypto_pake.c:197).  `none` models a NULL
`cipher_suite` pointer. -/
def psa_pake_setup (op : PakeOp) (cs : Option CipherSuite) : PsaStatus × PakeOp :=
  if op.alg ≠ .NONE then (.BadState, op)
  else
    match cs with
    | none => (.InvalidArgument, op)
    | some c =>
      if ¬ PSA_ALG_IS_PAKE c.algorithm ∨
         (c.ptype ≠ PSA_PAKE_PRIMITIVE_TYPE_ECC ∧ c.ptype ≠ PSA_PAKE_PRIMITIVE_TYPE_DH) ∨
         ¬ PSA_ALG_IS_HASH c.hash then
        (.InvalidArgument, op)
      else if c.algorithm = .JPAKE then
        if c.ptype ≠ PSA_PAKE_PRIMITIVE_TYPE_ECC ∨ c.family ≠ PSA_ECC_FAMILY_SECP_R1 ∨
           c.bits ≠ 256 ∨ c.hash ≠ .SHA_256 then
          (.NotSupported, op)
        else
          (.Success,
            { op with alg := c.algorithm, ctx_init := true,
                      state := .SETUP, sequence := .SEQ_INVALID,
                      input_step := .STEP_X1_X2, output_step := .STEP_X1_X2,
                      buffer := pakeZeroBuffer, buffer_length := 0, buffer_offset := 0 })
      else (.NotSupported, op)

/-- Oracle for the external key-attribute lookup of `psa_pake_set_password_key`:
`psa_get_key_attributes` status, then `psa_get_key_type` and
`psa_get_key_usage_flags` of the returned attributes. -/
structure KeyAttrEnv where
  status : PsaStatus
  key_type : Nat
  usage : Nat

/-- C entity `psa_pake_set_password_key` (psa_crypto_pake.c:244). -/
def psa_pake_set_password_key (env : KeyAttrEnv) (op : PakeOp)
    (password : Nat) : PsaStatus × PakeOp :=
  if op.alg = .NONE ∨ op.state ≠ .SETUP then (.BadState, op)
  else if env.status ≠ .Success then (env.status, op)
  else if env.key_type ≠ PSA_KEY_TYPE_PASSWORD ∧
          env.key_type ≠ PSA_KEY_TYPE_PASSWORD_HASH then (.InvalidArgument, op)
  else if env.usage &&& PSA_KEY_USAGE_DERIVE = 0 then (.NotPermitted, op)
  else (.Success, { op with password := password })

/-- C entity `psa_pake_set_user` (psa_crypto_pake.c:281); NULL pointer check not
modelled. -/
def psa_pake_set_user (op : PakeOp) (user_id_len : Nat) : PsaStatus × PakeOp :=
  if op.alg = .NONE ∨ op.state ≠ .SETUP then (.BadState, op)
  else if user_id_len = 0 then (.InvalidArgument, op)
  else (.NotSupported, op)

/-- C entity `psa_pake_set_peer` (psa_crypto_pake.c:297). -/
def psa_pake_set_peer (op : PakeOp) (peer_id_len : Nat) : PsaStatus × PakeOp :=
  if op.alg = .NONE ∨ op.state ≠ .SETUP then (.BadState, op)
  else if peer_id_len = 0 then (.InvalidArgument, op)
  else (.NotSupported, op)

/-- C entity `psa_pake_set_role` (psa_crypto_pake.c:313). -/
def psa_pake_set_role (op : PakeOp) (role : Nat) : PsaStatus × PakeOp :=
  if op.alg = .NONE ∨ op.state ≠ .SETUP then (.BadState, op)
  else if role ≠ PSA_PAKE_ROLE_NONE ∧ role ≠ PSA_PAKE_ROLE_FIRST ∧
          role ≠ PSA_PAKE_ROLE_SECOND ∧ role ≠ PSA_PAKE_ROLE_CLIENT ∧
          role ≠ PSA_PAKE_ROLE_SERVER then (.InvalidArgument, op)
  else if op.alg = .JPAKE then
    if role ≠ PSA_PAKE_ROLE_CLIENT ∧ role ≠ PSA_PAKE_ROLE_SERVER then
      (.NotSupported, op)
    else (.Success, { op with role := role })
  else (.NotSupported, op)

/-- Oracle for the lazy engine initialization `psa_pake_ecjpake_setup`:
`psa_is_valid_key_id(password, 1)`, `psa_get_and_lock_key_slot` status and
the `mbedtls_ecjpake_setup` return value. -/
structure EcjSetupEnv where
  key_valid : Bool
  lock_status : PsaStatus
  setup_ret : Int

/-- C entity `psa_pake_ecjpake_setup` (psa_crypto_pake.c:348). -/
def psa_pake_ecjpake_setup (env : EcjSetupEnv) (op : PakeOp) : PsaStatus × PakeOp :=
  if op.role ≠ PSA_PAKE_ROLE_CLIENT ∧ op.role ≠ PSA_PAKE_ROLE_SERVER then
    (.BadState, op)
  else if ¬ env.key_valid then (.BadState, op)
  else if env.lock_status ≠ .Success then (env.lock_status, op)
  else if env.setup_ret ≠ 0 then (mbedtls_ecjpake_to_psa_error env.setup_ret, op)
  else (.Success, { op with state := .READY })

/-- Oracle for one engine round write (`mbedtls_ecjpake_write_round_one`,
`_round_two` or `_write_shared_key`, whichever the call under scrutiny
performs): the return value and, on success, the bytes deposited in
`operation->buffer` (their count is what the engine stores through the
`olen` pointer into `operation->buffer_length`). -/
structure RoundWriteEnv where
  ret : Int
  data : List Nat

/-- Oracles consumed by one `psa_pake_output` call. -/
structure OutputEnv where
  setup : EcjSetupEnv
  write : RoundWriteEnv

/-- Oracles consumed by one `psa_pake_input` call; `read_ret` is the result of
`mbedtls_ecjpake_read_round_one`/`_two` if the call reaches the end of a
round. -/
structure InputEnv where
  setup : EcjSetupEnv
  read_ret : Int

/-- The step ↔ sequence agreement switch shared verbatim by
`psa_pake_output` (psa_crypto_pake.c:464) and `psa_pake_input`
(psa_crypto_pake.c:688). -/
def seqMatchesStep (s : PakeSeq) (step : Nat) : Bool :=
  match s with
  | .X1_KEY_SHARE | .X2_KEY_SHARE => step = PSA_PAKE_STEP_KEY_SHARE
  | .X1_ZK_PUBLIC | .X2_ZK_PUBLIC => step = PSA_PAKE_STEP_ZK_PUBLIC
  | .X1_ZK_PROOF | .X2_ZK_PROOF => step = PSA_PAKE_STEP_ZK_PROOF
  | _ => false

/-- C entity `step` is one of the three public I/O steps (guard at
psa_crypto_pake.c:422 and 636). -/
def validPakeStep (step : Nat) : Prop :=
  step = PSA_PAKE_STEP_KEY_SHARE ∨ step = PSA_PAKE_STEP_ZK_PUBLIC ∨
  step = PSA_PAKE_STEP_ZK_PROOF

instance (step : Nat) : Decidable (validPakeStep step) := by
  unfold validPakeStep; infer_instance

/-- C entity `psa_pake_output`, psa_crypto_pake.c:463-595: the part of the JPAKE
output path past the eligibility check and READY dispatch (the step/sequence
agreement switch onwards).  Third result component: the slice `memcpy`-ed to
`output` together with the value stored in `*output_length` (`none` when
nothing is copied). -/
def psa_pake_output_core (wenv : RoundWriteEnv) (op1 : PakeOp) (step : Nat)
    (output_size : Nat) : PsaStatus × PakeOp × Option (List Nat × Nat) :=
  if ¬ seqMatchesStep op1.sequence step then (.BadState, op1, none)
  else if op1.sequence = .X1_KEY_SHARE ∧ wenv.ret ≠ 0 then
    -- engine failure in write_round_one / write_round_two
    (mbedtls_ecjpake_to_psa_error wenv.ret, (psa_pake_abort op1).2, none)
  else
    let op2 := if op1.sequence = .X1_KEY_SHARE then
        { op1 with buffer := listWrite op1.buffer 0 wenv.data,
                   buffer_length := wenv.data.length, buffer_offset := 0 }
      else op1
    let length := if op2.state = .OUTPUT_X2S ∧ op2.sequence = .X1_KEY_SHARE then
        (if op2.role = PSA_PAKE_ROLE_SERVER then 3 + op2.buffer.getD 3 0 + 1
         else op2.buffer.getD 0 0 + 1)
      else op2.buffer.getD op2.buffer_offset 0 + 1
    if op2.buffer_length < length then (.DataCorrupt, op2, none)
    else if output_size < length then
      (.BufferTooSmall, (psa_pake_abort op2).2, none)
    else
      let out := sliceAt op2.buffer op2.buffer_offset length
      let op3 := { op2 with buffer_offset := op2.buffer_offset + length }
      if (op3.state = .OUTPUT_X1_X2 ∧ op3.sequence = .X2_ZK_PROOF) ∨
         (op3.state = .OUTPUT_X2S ∧ op3.sequence = .X1_ZK_PROOF) then
        (.Success,
          { op3 with buffer := pakeZeroBuffer, buffer_length := 0,
                     buffer_offset := 0, state := .READY,
                     output_step := roundStepNext op3.output_step,
                     sequence := .SEQ_INVALID },
          some (out, length))
      else
        (.Success, { op3 with sequence := seqNext op3.sequence }, some (out, length))

/-- The eligibility check and READY dispatch of the staged output path
(psa_crypto_pake.c:436-461), in front of `psa_pake_output_core`. -/
def psa_pake_output_staged (wenv : RoundWriteEnv) (op : PakeOp) (step : Nat)
    (output_size : Nat) : PsaStatus × PakeOp × Option (List Nat × Nat) :=
  if ¬ (op.state = .READY ∨ op.state = .OUTPUT_X1_X2 ∨ op.state = .OUTPUT_X2S) then
    (.BadState, op, none)
  else
    match (if op.state = .READY then
             if step ≠ PSA_PAKE_STEP_KEY_SHARE then none
             else match op.output_step with
               | .STEP_X1_X2 => some { op with state := .OUTPUT_X1_X2, sequence := .X1_KEY_SHARE }
               | .STEP_X2S => some { op with state := .OUTPUT_X2S, sequence := .X1_KEY_SHARE }
               | _ => none
           else some op) with
    | none => (.BadState, op, none)
    | some op1 => psa_pake_output_core wenv op1 step output_size

/-- C entity `psa_pake_output` (psa_crypto_pake.c:388).  NULL pointer checks on
`output`/`output_length` are outside the model; the `output_size == 0` guard
is kept. -/
def psa_pake_output (env : OutputEnv) (op : PakeOp) (step : Nat)
    (output_size : Nat) : PsaStatus × PakeOp × Option (List Nat × Nat) :=
  if op.alg = .NONE ∨ op.state = .INVALID then (.BadState, op, none)
  else if output_size = 0 then (.InvalidArgument, op, none)
  else if op.alg = .JPAKE then
    if ¬ validPakeStep step then (.InvalidArgument, op, none)
    else if op.state = .SETUP then
      match psa_pake_ecjpake_setup env.setup op with
      | (.Success, op1) => psa_pake_output_staged env.write op1 step output_size
      | (st, op1) => (st, (psa_pake_abort op1).2, none)
    else psa_pake_output_staged env.write op step output_size
  else (.NotSupported, op, none)

/-- C entity `psa_pake_input`, psa_crypto_pake.c:678-763: the JPAKE input path
past the eligibility check and READY dispatch (the capacity check onwards).
The C code runs the end-of-round engine read (717-749) and the end-of-round
advance (751-761) as two blocks guarded by the same state/sequence condition,
which neither block changes; they are merged here. -/
def psa_pake_input_core (read_ret : Int) (op1 : PakeOp) (step : Nat)
    (input : List Nat) : PsaStatus × PakeOp :=
  let buffer_remain := PSA_PAKE_BUFFER_SIZE - op1.buffer_length
  if input.length = 0 ∨ buffer_remain < input.length then
    (.InsufficientMemory, (psa_pake_abort op1).2)
  else if ¬ seqMatchesStep op1.sequence step then (.BadState, op1)
  else
    let op2 := { op1 with buffer := listWrite op1.buffer op1.buffer_length input,
                          buffer_length := op1.buffer_length + input.length }
    if (op2.state = .INPUT_X1_X2 ∧ op2.sequence = .X2_ZK_PROOF) ∨
       (op2.state = .INPUT_X4S ∧ op2.sequence = .X1_ZK_PROOF) then
      -- read_round_one / read_round_two, then unconditional zeroize
      let op3 := { op2 with buffer := pakeZeroBuffer, buffer_length := 0 }
      if read_ret ≠ 0 then
        (mbedtls_ecjpake_to_psa_error read_ret, (psa_pake_abort op3).2)
      else
        (.Success, { op3 with state := .READY,
                              input_step := roundStepNext op3.input_step,
                              sequence := .SEQ_INVALID })
    else (.Success, { op2 with sequence := seqNext op2.sequence })

/-- The eligibility check and READY dispatch of the staged input path
(psa_crypto_pake.c:651-676), in front of `psa_pake_input_core`. -/
def psa_pake_input_staged (read_ret : Int) (op : PakeOp) (step : Nat)
    (input : List Nat) : PsaStatus × PakeOp :=
  if ¬ (op.state = .READY ∨ op.state = .INPUT_X1_X2 ∨ op.state = .INPUT_X4S) then
    (.BadState, op)
  else
    match (if op.state = .READY then
             if step ≠ PSA_PAKE_STEP_KEY_SHARE then none
             else match op.input_step with
               | .STEP_X1_X2 => some { op with state := .INPUT_X1_X2, sequence := .X1_KEY_SHARE }
               | .STEP_X2S => some { op with state := .INPUT_X4S, sequence := .X1_KEY_SHARE }
               | _ => none
           else some op) with
    | none => (.BadState, op)
    | some op1 => psa_pake_input_core read_ret op1 step input

/-- C entity `psa_pake_input` (psa_crypto_pake.c:602).  The NULL pointer check on
`input` is outside the model; the `input_length == 0` guard is kept. -/
def psa_pake_input (env : InputEnv) (op : PakeOp) (step : Nat)
    (input : List Nat) : PsaStatus × PakeOp :=
  if op.alg = .NONE ∨ op.state = .INVALID then (.BadState, op)
  else if input.length = 0 then (.InvalidArgument, op)
  else if op.alg = .JPAKE then
    if ¬ validPakeStep step then (.InvalidArgument, op)
    else if op.state = .SETUP then
      match psa_pake_ecjpake_setup env.setup op with
      | (.Success, op1) => psa_pake_input_staged env.read_ret op1 step input
      | (st, op1) => (st, (psa_pake_abort op1).2)
    else psa_pake_input_staged env.read_ret op step input
  else (.NotSupported, op)

/-- Oracles consumed by one `psa_pake_get_implicit_key` call:
`mbedtls_ecjpake_write_shared_key` and the status of
`psa_key_derivation_input_bytes` on the KDF sink. -/
structure ImplicitKeyEnv where
  write : RoundWriteEnv
  kdf_status : PsaStatus

/-- C entity `psa_pake_get_implicit_key` (psa_crypto_pake.c:770).  Third result
component: the secret bytes fed to the KDF sink (`none` if the engine call
failed first).  On engine failure the C code aborts immediately; since
`psa_pake_abort` resets every field, aborting the pre-write handle yields the
same result. -/
def psa_pake_get_implicit_key (env : ImplicitKeyEnv) (op : PakeOp) :
    PsaStatus × PakeOp × Option (List Nat) :=
  if op.alg = .NONE ∨ op.state ≠ .READY ∨ op.input_step ≠ .STEP_DERIVE ∨
     op.output_step ≠ .STEP_DERIVE then
    (.BadState, op, none)
  else if op.alg = .JPAKE then
    if env.write.ret ≠ 0 then
      (mbedtls_ecjpake_to_psa_error env.write.ret, (psa_pake_abort op).2, none)
    else
      let op1 := { op with buffer := listWrite op.buffer 0 env.write.data,
                           buffer_length := env.write.data.length }
      let shared := op1.buffer.take op1.buffer_length
      let op2 := { op1 with buffer := pakeZeroBuffer }
      (env.kdf_status, (psa_pake_abort op2).2, some shared)
  else (.NotSupported, op, none)


/-! ## Claim C1 — residue binding value check -/

/-- Example modulus for the residue-binding claims: value 5, one limb, set up
successfully with external representation LE and internal representation
OPT_RED (no Montgomery oracle needed). -/
def residueClaimModulus : Modulus :=
  (mbedtls_mpi_mod_modulus_setup ⟨0, none⟩ mbedtls_mpi_mod_modulus_init
    [5] 1 .LE .OPT_RED).2.1

/-- C1, evaluation at the failing input: for the successfully set-up modulus
of value 5, binding the buffer `[3]` (value 3 < 5, which the claim and spec
§4.1.2 say must succeed) returns BadInput, while binding `[7]` (value 7 > 5,
which the claim says must be rejected) succeeds.  The value check of
`mbedtls_mpi_mod_residue_setup` calls the strict less-than comparator as
`mbedtls_mpi_core_lt_ct(m->p, p, p_limbs)`, i.e. it accepts exactly the
buffers whose value is strictly greater than the modulus. -/
theorem mpi_mod_residue_setup_value_check_inverted :
    (mbedtls_mpi_mod_modulus_setup ⟨0, none⟩ mbedtls_mpi_mod_modulus_init
        [5] 1 .LE .OPT_RED).1 = 0 ∧
    residueClaimModulus.limbs = 1 ∧
    residueClaimModulus.p = some [5] ∧
    limbsVal [3] < limbsVal [5] ∧
    mbedtls_mpi_mod_residue_setup residueClaimModulus [3] 1 =
      .error MBEDTLS_ERR_MPI_BAD_INPUT_DATA ∧
    limbsVal [5] < limbsVal [7] ∧
    mbedtls_mpi_mod_residue_setup residueClaimModulus [7] 1 =
      .ok { limbs := 1, p := [7] } := by
  refine ⟨rfl, rfl, rfl, ?_, rfl, ?_, rfl⟩ <;> decide

/-! ## Claim C8 — modulus setup error paths -/

/-- Any call to `mbedtls_mpi_mod_modulus_free` leaves exactly the freed
(= initialized) modulus. -/
theorem mpi_mod_modulus_free_fst (m : Modulus) :
    (mbedtls_mpi_mod_modulus_free m).1 = mbedtls_mpi_mod_modulus_init := rfl

/-- Every error path of `mbedtls_mpi_mod_modulus_setup` runs
`mbedtls_mpi_mod_modulus_free` and so leaves the modulus in the freed state
(`p` NULL, `limbs = 0`, `bits = 0`, `ext_rep` Invalid, `int_rep` Invalid —
exactly the state after `mbedtls_mpi_mod_modulus_init`): the freed-state half
of the release contract, which the code does satisfy. -/
theorem mpi_mod_modulus_setup_error_frees
    (env : ModSetupEnv) (m0 : Modulus) (p : List Nat) (p_limbs : Nat)
    (ext_rep : ExtRep) (int_rep : RepSelector) :
    (mbedtls_mpi_mod_modulus_setup env m0 p p_limbs ext_rep int_rep).1 ≠ 0 →
      (mbedtls_mpi_mod_modulus_setup env m0 p p_limbs ext_rep int_rep).2.1 =
        mbedtls_mpi_mod_modulus_init := by
  intro h
  cases ext_rep <;> cases int_rep <;>
    by_cases hsq : (set_mont_const_square env (some p) p_limbs).1 = 0 <;>
    simp_all [mbedtls_mpi_mod_modulus_setup, mbedtls_mpi_mod_modulus_free,
      mbedtls_mpi_mod_modulus_init]

/-- A modulus that owns the two-limb Montgomery constant `rr = [9, 9]`
(the state after a successful Montgomery setup, with both limbs holding the
secret value 9). -/
def modulusWithRR : Modulus :=
  { p := some [1, 2], limbs := 2, bits := 65, ext_rep := .BE,
    rep := .mont 3 (some [9, 9]) }

/-- C8, evaluation at the failing input: an erroring setup call (invalid
external representation) on a modulus owning the Montgomery vector
`rr = [9, 9]` returns BadInput and does leave the freed state, but the `rr`
it releases is only partially zeroized: `mbedtls_mpi_mod_modulus_free`
passes the limb count `m->limbs = 2` as the byte-length argument of
`mbedtls_platform_zeroize`, clearing 2 of the 16 bytes of the vector, so the
buffer handed to `mbedtls_free` is `[0, 9]` — the second limb still holds
the secret — and not the fully zeroized `[0, 0]` that the claim (and spec
§5/§9) require.  A direct `mbedtls_mpi_mod_modulus_free` shows the same. -/
theorem mpi_mod_modulus_rr_partial_zeroize :
    (mbedtls_mpi_mod_modulus_setup ⟨0, none⟩ modulusWithRR
        [5, 6] 2 .INVALID .MONTGOMERY).1 = MBEDTLS_ERR_MPI_BAD_INPUT_DATA ∧
    (mbedtls_mpi_mod_modulus_setup ⟨0, none⟩ modulusWithRR
        [5, 6] 2 .INVALID .MONTGOMERY).2.1 = mbedtls_mpi_mod_modulus_init ∧
    (mbedtls_mpi_mod_modulus_setup ⟨0, none⟩ modulusWithRR
        [5, 6] 2 .INVALID .MONTGOMERY).2.2 = [[0, 9]] ∧
    (mbedtls_mpi_mod_modulus_free modulusWithRR).2 = [[0, 9]] ∧
    [0, 9] ≠ List.replicate 2 0 := by
  refine ⟨rfl, rfl, by decide, by decide, by decide⟩


/-! ## Claim C4 — cipher suite acceptance in psa_pake_setup -/

/-- The single supported cipher suite tuple (spec §6.1). -/
def acceptedSuite (c : CipherSuite) : Prop :=
  c.algorithm = .JPAKE ∧ c.ptype = PSA_PAKE_PRIMITIVE_TYPE_ECC ∧
  c.family = PSA_ECC_FAMILY_SECP_R1 ∧ c.bits = 256 ∧ c.hash = .SHA_256

/-- Basic argument validation of `psa_pake_setup` (psa_crypto_pake.c:204):
the algorithm is a PAKE algorithm, the primitive type is ECC or DH, and the
hash is a hash algorithm. -/
def suiteArgsValid (c : CipherSuite) : Prop :=
  PSA_ALG_IS_PAKE c.algorithm = true ∧
  (c.ptype = PSA_PAKE_PRIMITIVE_TYPE_ECC ∨ c.ptype = PSA_PAKE_PRIMITIVE_TYPE_DH) ∧
  PSA_ALG_IS_HASH c.hash = true

instance (c : CipherSuite) : Decidable (acceptedSuite c) := by
  unfold acceptedSuite; infer_instance

instance (c : CipherSuite) : Decidable (suiteArgsValid c) := by
  unfold suiteArgsValid; infer_instance

/-- C4, counterexample: a cipher suite whose algorithm is not a PAKE
algorithm is not the accepted tuple, yet `psa_pake_setup` on a freshly
initialized handle rejects it with InvalidArgument, not NotSupported as the
claim states. -/
theorem psa_pake_setup_not_supported_cex :
    psa_pake_setup PSA_PAKE_OPERATION_INIT
        (some { algorithm := .OTHER_ALG, ptype := PSA_PAKE_PRIMITIVE_TYPE_ECC,
                family := PSA_ECC_FAMILY_SECP_R1, bits := 256, hash := .SHA_256 }) =
      (.InvalidArgument, PSA_PAKE_OPERATION_INIT) ∧
    Alg.OTHER_ALG ≠ Alg.JPAKE ∧
    PsaStatus.InvalidArgument ≠ PsaStatus.NotSupported := by
  refine ⟨?_, by decide, by decide⟩
  rfl

/-- C4, amended: on a freshly initialized handle `psa_pake_setup` succeeds
exactly for the tuple (JPAKE, ECC, SECP_R1, 256, SHA-256); a suite failing
basic argument validation (not a PAKE algorithm, primitive type not ECC/DH,
or hash not a hash) is rejected with InvalidArgument, and every other
combination with NotSupported; in both failure cases the handle is left
exactly as initialized (alg = None, state = Invalid, no resources). -/
theorem psa_pake_setup_suite_dispatch (c : CipherSuite) :
    (acceptedSuite c →
      (psa_pake_setup PSA_PAKE_OPERATION_INIT (some c)).1 = .Success ∧
      (psa_pake_setup PSA_PAKE_OPERATION_INIT (some c)).2.alg = .JPAKE ∧
      (psa_pake_setup PSA_PAKE_OPERATION_INIT (some c)).2.state = .SETUP) ∧
    (¬ suiteArgsValid c →
      psa_pake_setup PSA_PAKE_OPERATION_INIT (some c) =
        (.InvalidArgument, PSA_PAKE_OPERATION_INIT)) ∧
    (suiteArgsValid c → ¬ acceptedSuite c →
      psa_pake_setup PSA_PAKE_OPERATION_INIT (some c) =
        (.NotSupported, PSA_PAKE_OPERATION_INIT)) := by
  obtain ⟨alg, pt, fam, bits, hash⟩ := c
  refine ⟨fun hacc => ?_, fun hinv => ?_, fun hval hacc => ?_⟩
  · obtain ⟨h1, h2, h3, h4, h5⟩ := hacc
    subst h1 h2 h3 h4 h5
    exact ⟨rfl, rfl, rfl⟩
  · simp only [suiteArgsValid, not_and_or] at hinv
    cases alg <;> cases hash <;>
      simp_all [psa_pake_setup, PSA_ALG_IS_PAKE, PSA_ALG_IS_HASH,
        PSA_PAKE_OPERATION_INIT]
  · obtain ⟨h1, h2, h3⟩ := hval
    simp only [acceptedSuite, not_and_or] at hacc
    cases alg <;> cases hash <;>
      simp_all [psa_pake_setup, PSA_ALG_IS_PAKE, PSA_ALG_IS_HASH,
        PSA_PAKE_PRIMITIVE_TYPE_ECC, PSA_PAKE_PRIMITIVE_TYPE_DH,
        PSA_ECC_FAMILY_SECP_R1] <;>
      split_ifs <;> simp_all <;> tauto

/-- Witness for C4 (amended): the accepted tuple succeeds, and a well-formed
but unsupported tuple (wrong curve family) gets NotSupported. -/
theorem psa_pake_setup_suite_dispatch_witness :
    (psa_pake_setup PSA_PAKE_OPERATION_INIT
        (some { algorithm := .JPAKE, ptype := PSA_PAKE_PRIMITIVE_TYPE_ECC,
                family := PSA_ECC_FAMILY_SECP_R1, bits := 256,
                hash := .SHA_256 })).1 = .Success ∧
    psa_pake_setup PSA_PAKE_OPERATION_INIT
        (some { algorithm := .JPAKE, ptype := PSA_PAKE_PRIMITIVE_TYPE_ECC,
                family := 0x13, bits := 256, hash := .SHA_256 }) =
      (.NotSupported, PSA_PAKE_OPERATION_INIT) := by
  constructor
  · exact (psa_pake_setup_suite_dispatch _).1 (by decide) |>.1
  · exact (psa_pake_setup_suite_dispatch _).2.2 (by decide) (by decide)

/-! ## Claim C10 — set_password_key frame -/

/-- C10: for a handle in state Setup, `psa_pake_set_password_key` leaves the
handle entirely unchanged on every failure (attribute lookup failure
propagated as-is; key type not Password/PasswordHash giving InvalidArgument;
missing DERIVE usage giving NotPermitted), and on Success updates exactly the
`password` field. -/
theorem psa_pake_set_password_key_frame (env : KeyAttrEnv) (op : PakeOp)
    (password : Nat) (halg : op.alg ≠ .NONE) (hst : op.state = .SETUP) :
    ((psa_pake_set_password_key env op password).1 ≠ .Success →
      (psa_pake_set_password_key env op password).2 = op) ∧
    ((psa_pake_set_password_key env op password).1 = .Success →
      (psa_pake_set_password_key env op password).2 =
        { op with password := password }) ∧
    (env.status ≠ .Success →
      (psa_pake_set_password_key env op password).1 = env.status) ∧
    (env.status = .Success →
      env.key_type ≠ PSA_KEY_TYPE_PASSWORD →
      env.key_type ≠ PSA_KEY_TYPE_PASSWORD_HASH →
      (psa_pake_set_password_key env op password).1 = .InvalidArgument) ∧
    (env.status = .Success →
      (env.key_type = PSA_KEY_TYPE_PASSWORD ∨
       env.key_type = PSA_KEY_TYPE_PASSWORD_HASH) →
      env.usage &&& PSA_KEY_USAGE_DERIVE = 0 →
      (psa_pake_set_password_key env op password).1 = .NotPermitted) := by
  unfold psa_pake_set_password_key
  simp only [halg, hst]
  split_ifs <;> simp_all <;> tauto

/-- Witness for C10: on a freshly set-up handle, a Password key with the
DERIVE usage flag binds the password and changes nothing else; a key with the
wrong type leaves the handle untouched. -/
theorem psa_pake_set_password_key_frame_witness :
    (psa_pake_set_password_key ⟨.Success, PSA_KEY_TYPE_PASSWORD, PSA_KEY_USAGE_DERIVE⟩
        (psa_pake_setup PSA_PAKE_OPERATION_INIT
          (some { algorithm := .JPAKE, ptype := PSA_PAKE_PRIMITIVE_TYPE_ECC,
                  family := PSA_ECC_FAMILY_SECP_R1, bits := 256,
                  hash := .SHA_256 })).2 42).2 =
      { (psa_pake_setup PSA_PAKE_OPERATION_INIT
          (some { algorithm := .JPAKE, ptype := PSA_PAKE_PRIMITIVE_TYPE_ECC,
                  family := PSA_ECC_FAMILY_SECP_R1, bits := 256,
                  hash := .SHA_256 })).2 with password := 42 } ∧
    (psa_pake_set_password_key ⟨.Success, 0x1111, PSA_KEY_USAGE_DERIVE⟩
        (psa_pake_setup PSA_PAKE_OPERATION_INIT
          (some { algorithm := .JPAKE, ptype := PSA_PAKE_PRIMITIVE_TYPE_ECC,
                  family := PSA_ECC_FAMILY_SECP_R1, bits := 256,
                  hash := .SHA_256 })).2 42).2 =
      (psa_pake_setup PSA_PAKE_OPERATION_INIT
          (some { algorithm := .JPAKE, ptype := PSA_PAKE_PRIMITIVE_TYPE_ECC,
                  family := PSA_ECC_FAMILY_SECP_R1, bits := 256,
                  hash := .SHA_256 })).2 := by
  constructor
  · exact (psa_pake_set_password_key_frame _ _ 42 (by decide) (by decide)).2.1 (by decide)
  · exact (psa_pake_set_password_key_frame _ _ 42 (by decide) (by decide)).1 (by decide)


/-! ## Shared: aborting a JPAKE handle resets every field -/

/-- For a handle with `alg = JPAKE`, `psa_pake_abort` resets every field:
the result is exactly the zero-initialized handle (buffer zeroized, lengths
and offset 0, all enums at their sentinels, password cleared, engine context
freed). -/
theorem psa_pake_abort_of_jpake (op : PakeOp) (h : op.alg = .JPAKE) :
    (psa_pake_abort op).2 = PSA_PAKE_OPERATION_INIT := by
  cases op
  simp_all [psa_pake_abort, PSA_PAKE_OPERATION_INIT]

/-! ## Claim C5 — input capacity check -/

/-- A JPAKE handle in the middle of round-one input (two parts already
staged, five bytes buffered). -/
def opInputMid : PakeOp :=
  { alg := .JPAKE, state := .INPUT_X1_X2, sequence := .X1_ZK_PUBLIC,
    input_step := .STEP_X1_X2, output_step := .STEP_X1_X2,
    role := PSA_PAKE_ROLE_CLIENT, password := 7, ctx_init := true,
    buffer := pakeZeroBuffer, buffer_length := 5, buffer_offset := 0 }

/-- C5, counterexample: on a handle in an input-accepting state, a
zero-length input does not abort with InsufficientMemory as the claim states;
it is rejected by the early argument check with InvalidArgument and the
handle is left unchanged. -/
theorem psa_pake_input_zero_length_cex :
    psa_pake_input ⟨⟨true, .Success, 0⟩, 0⟩ opInputMid PSA_PAKE_STEP_ZK_PUBLIC [] =
      (.InvalidArgument, opInputMid) ∧
    PsaStatus.InvalidArgument ≠ PsaStatus.InsufficientMemory ∧
    opInputMid.state = .INPUT_X1_X2 := by
  refine ⟨rfl, by decide, rfl⟩

/-- C5, amended: for a handle in an input-accepting state, `psa_pake_input`
aborts the handle and returns InsufficientMemory whenever the (nonzero)
input length exceeds `capacity(buffer) - buffer_length`; a zero input length
is instead rejected earlier with InvalidArgument without aborting.  The
capacity check is applied before the step-versus-sequence agreement check:
no agreement between `step` and the current sequence is assumed here. -/
theorem psa_pake_input_capacity_aborts (env : InputEnv) (op : PakeOp)
    (step : Nat) (input : List Nat)
    (halg : op.alg = .JPAKE) (hstep : validPakeStep step)
    (hstate : op.state = .INPUT_X1_X2 ∨ op.state = .INPUT_X4S ∨
      (op.state = .READY ∧ step = PSA_PAKE_STEP_KEY_SHARE ∧
        (op.input_step = .STEP_X1_X2 ∨ op.input_step = .STEP_X2S)))
    (hne : input.length ≠ 0)
    (_hblen : op.buffer_length ≤ PSA_PAKE_BUFFER_SIZE)
    (hcap : PSA_PAKE_BUFFER_SIZE - op.buffer_length < input.length) :
    psa_pake_input env op step input = (.InsufficientMemory, PSA_PAKE_OPERATION_INIT) := by
  rcases hstate with h | h | ⟨h, hks, hin⟩
  · simp [psa_pake_input, psa_pake_input_staged, psa_pake_input_core, halg, h, hne, hstep, hcap,
      psa_pake_abort_of_jpake, -List.length_eq_zero]
  · simp [psa_pake_input, psa_pake_input_staged, psa_pake_input_core, halg, h, hne, hstep, hcap,
      psa_pake_abort_of_jpake, -List.length_eq_zero]
  · rcases hin with h2 | h2 <;>
      simp [psa_pake_input, psa_pake_input_staged, psa_pake_input_core, halg, h, hks, h2, hne, hstep,
        hcap, psa_pake_abort_of_jpake, -List.length_eq_zero] <;> decide

/-- Witness for C5 (amended): a handle whose staging buffer is full aborts on
a one-byte input with InsufficientMemory — even though the supplied step
(ZK_PROOF) disagrees with the current sequence (X1 KEY_SHARE), showing the
capacity check fires before the agreement check. -/
theorem psa_pake_input_capacity_aborts_witness :
    psa_pake_input ⟨⟨true, .Success, 0⟩, 0⟩
        { opInputMid with buffer_length := PSA_PAKE_BUFFER_SIZE,
                          sequence := .X1_KEY_SHARE }
        PSA_PAKE_STEP_ZK_PROOF [9] =
      (.InsufficientMemory, PSA_PAKE_OPERATION_INIT) := by
  exact psa_pake_input_capacity_aborts _ _ _ _ (by decide) (by decide)
    (Or.inl (by decide)) (by decide) (by decide) (by decide)

/-! ## Claim C6 — get_implicit_key always consumes the handle -/

/-- C6: `psa_pake_get_implicit_key` returns BadState (leaving the handle
unchanged) unless state = Ready and input_step = output_step = Derive; when
the precondition is met the handle is always aborted before returning —
the result handle is exactly the zero-initialized one, so alg = None,
state = Invalid and the buffer is zeroized — both when the engine call fails
(status is the mapped engine error) and when it succeeds (status is the KDF
sink status). -/
theorem psa_pake_get_implicit_key_consumes :
    (∀ (env : ImplicitKeyEnv) (op : PakeOp),
      (op.state ≠ .READY ∨ op.input_step ≠ .STEP_DERIVE ∨
       op.output_step ≠ .STEP_DERIVE) →
      psa_pake_get_implicit_key env op = (.BadState, op, none)) ∧
    (∀ (env : ImplicitKeyEnv) (op : PakeOp),
      op.alg = .JPAKE → op.state = .READY → op.input_step = .STEP_DERIVE →
      op.output_step = .STEP_DERIVE →
      (psa_pake_get_implicit_key env op).2.1 = PSA_PAKE_OPERATION_INIT ∧
      (env.write.ret ≠ 0 →
        (psa_pake_get_implicit_key env op).1 =
          mbedtls_ecjpake_to_psa_error env.write.ret) ∧
      (env.write.ret = 0 →
        (psa_pake_get_implicit_key env op).1 = env.kdf_status)) := by
  constructor
  · intro env op h
    rcases h with h | h | h <;> simp [psa_pake_get_implicit_key, h]
  · intro env op halg h1 h2 h3
    by_cases hw : env.write.ret = 0 <;>
      simp [psa_pake_get_implicit_key, halg, h1, h2, h3, hw,
        psa_pake_abort_of_jpake]

/-- A JPAKE handle that has completed both rounds in each direction:
state Ready with both round pointers at Derive. -/
def opDerive : PakeOp :=
  { alg := .JPAKE, state := .READY, sequence := .SEQ_INVALID,
    input_step := .STEP_DERIVE, output_step := .STEP_DERIVE,
    role := PSA_PAKE_ROLE_CLIENT, password := 7, ctx_init := true,
    buffer := pakeZeroBuffer, buffer_length := 0, buffer_offset := 0 }

/-- Witness for C6: with a successful engine call and a successful KDF sink,
the handle is consumed (reset to the initialized state) and the KDF status is
returned; and a handle with `input_step = X2S` gets BadState unchanged. -/
theorem psa_pake_get_implicit_key_consumes_witness :
    (psa_pake_get_implicit_key ⟨⟨0, [4, 1, 2, 3, 4]⟩, .Success⟩ opDerive).2.1 =
      PSA_PAKE_OPERATION_INIT ∧
    (psa_pake_get_implicit_key ⟨⟨0, [4, 1, 2, 3, 4]⟩, .Success⟩ opDerive).1 =
      .Success ∧
    psa_pake_get_implicit_key ⟨⟨0, [4, 1, 2, 3, 4]⟩, .Success⟩
        { opDerive with input_step := .STEP_X2S } =
      (.BadState, { opDerive with input_step := .STEP_X2S }, none) := by
  refine ⟨?_, ?_, ?_⟩
  · exact (psa_pake_get_implicit_key_consumes.2 _ opDerive rfl rfl rfl rfl).1
  · exact (psa_pake_get_implicit_key_consumes.2 _ opDerive rfl rfl rfl rfl).2.2 rfl
  · exact psa_pake_get_implicit_key_consumes.1 _ _ (Or.inr (Or.inl (by decide)))


/-! ## Claim C7 — step/sequence mismatch leaves the handle untouched -/

/-- C7: when the supplied step disagrees with the current sequence (for a
handle past the lazy engine initialization: in state Ready with a non-first
step, or mid-round with a step that fails the agreement switch), both
`psa_pake_output` and `psa_pake_input` return BadState with the handle
completely unchanged — no abort, no change to state, sequence, round
pointers, buffer, buffer_length or buffer_offset — so a subsequent call on
the returned handle behaves exactly as on the original (third conjunct). -/
theorem psa_pake_step_mismatch_keeps_handle :
    (∀ (env : OutputEnv) (op : PakeOp) (step sz : Nat),
      op.alg = .JPAKE → validPakeStep step → sz ≠ 0 →
      ((op.state = .READY ∧ step ≠ PSA_PAKE_STEP_KEY_SHARE) ∨
       ((op.state = .OUTPUT_X1_X2 ∨ op.state = .OUTPUT_X2S) ∧
         seqMatchesStep op.sequence step = false)) →
      psa_pake_output env op step sz = (.BadState, op, none)) ∧
    (∀ (env : InputEnv) (op : PakeOp) (step : Nat) (input : List Nat),
      op.alg = .JPAKE → validPakeStep step → input.length ≠ 0 →
      op.buffer_length + input.length ≤ PSA_PAKE_BUFFER_SIZE →
      ((op.state = .READY ∧ step ≠ PSA_PAKE_STEP_KEY_SHARE) ∨
       ((op.state = .INPUT_X1_X2 ∨ op.state = .INPUT_X4S) ∧
         seqMatchesStep op.sequence step = false)) →
      psa_pake_input env op step input = (.BadState, op)) ∧
    (∀ (env env2 : OutputEnv) (op : PakeOp) (step sz step2 sz2 : Nat),
      op.alg = .JPAKE → validPakeStep step → sz ≠ 0 →
      ((op.state = .READY ∧ step ≠ PSA_PAKE_STEP_KEY_SHARE) ∨
       ((op.state = .OUTPUT_X1_X2 ∨ op.state = .OUTPUT_X2S) ∧
         seqMatchesStep op.sequence step = false)) →
      psa_pake_output env2 (psa_pake_output env op step sz).2.1 step2 sz2 =
        psa_pake_output env2 op step2 sz2) := by
  have hout : ∀ (env : OutputEnv) (op : PakeOp) (step sz : Nat),
      op.alg = .JPAKE → validPakeStep step → sz ≠ 0 →
      ((op.state = .READY ∧ step ≠ PSA_PAKE_STEP_KEY_SHARE) ∨
       ((op.state = .OUTPUT_X1_X2 ∨ op.state = .OUTPUT_X2S) ∧
         seqMatchesStep op.sequence step = false)) →
      psa_pake_output env op step sz = (.BadState, op, none) := by
    intro env op step sz halg hstep hsz hmis
    rcases hmis with ⟨h1, h2⟩ | ⟨h1, h2⟩
    · simp [psa_pake_output, psa_pake_output_staged, psa_pake_output_core, halg, h1, h2, hsz, hstep]
    · rcases h1 with h1 | h1 <;>
        simp [psa_pake_output, psa_pake_output_staged, psa_pake_output_core, halg, h1, h2, hsz, hstep]
  refine ⟨hout, ?_, ?_⟩
  · intro env op step input halg hstep hne hcap hmis
    rcases hmis with ⟨h1, h2⟩ | ⟨h1, h2⟩
    · simp [psa_pake_input, psa_pake_input_staged, psa_pake_input_core, halg, h1, h2, hne, hstep,
        -List.length_eq_zero]
    · have hrem : ¬ (PSA_PAKE_BUFFER_SIZE - op.buffer_length < input.length) := by
        omega
      rcases h1 with h1 | h1 <;>
        simp [psa_pake_input, psa_pake_input_staged, psa_pake_input_core, halg, h1, h2, hne, hstep,
          hrem, -List.length_eq_zero]
  · intro env env2 op step sz step2 sz2 halg hstep hsz hmis
    rw [hout env op step sz halg hstep hsz hmis]

/-- Witness for C7: a handle mid round-one output (sequence at X2 ZK_PUBLIC)
called with the KEY_SHARE step returns BadState unchanged, and likewise for
input; calling the returned handle with any later step equals calling the
original. -/
theorem psa_pake_step_mismatch_keeps_handle_witness :
    psa_pake_output ⟨⟨true, .Success, 0⟩, ⟨0, []⟩⟩
        { opInputMid with state := .OUTPUT_X1_X2, sequence := .X2_ZK_PUBLIC }
        PSA_PAKE_STEP_KEY_SHARE 64 =
      (.BadState,
       { opInputMid with state := .OUTPUT_X1_X2, sequence := .X2_ZK_PUBLIC },
       none) ∧
    psa_pake_input ⟨⟨true, .Success, 0⟩, 0⟩ opInputMid PSA_PAKE_STEP_ZK_PROOF [9] =
      (.BadState, opInputMid) ∧
    psa_pake_output ⟨⟨true, .Success, 0⟩, ⟨0, []⟩⟩
        (psa_pake_output ⟨⟨true, .Success, 0⟩, ⟨0, []⟩⟩
          { opInputMid with state := .OUTPUT_X1_X2, sequence := .X2_ZK_PUBLIC }
          PSA_PAKE_STEP_KEY_SHARE 64).2.1
        PSA_PAKE_STEP_ZK_PUBLIC 64 =
      psa_pake_output ⟨⟨true, .Success, 0⟩, ⟨0, []⟩⟩
        { opInputMid with state := .OUTPUT_X1_X2, sequence := .X2_ZK_PUBLIC }
        PSA_PAKE_STEP_ZK_PUBLIC 64 := by
  refine ⟨?_, ?_, ?_⟩
  · exact psa_pake_step_mismatch_keeps_handle.1 _ _ _ _ (by decide) (by decide)
      (by decide) (Or.inr ⟨Or.inl (by decide), by decide⟩)
  · exact psa_pake_step_mismatch_keeps_handle.2.1 _ _ _ _ (by decide) (by decide)
      (by decide) (by decide) (Or.inr ⟨Or.inl (by decide), by decide⟩)
  · exact psa_pake_step_mismatch_keeps_handle.2.2 _ _ _ _ _ _ _ (by decide)
      (by decide) (by decide) (Or.inr ⟨Or.inl (by decide), by decide⟩)

/-! ## Claim C3 — the DataCorrupt guard in psa_pake_output -/

/-- A JPAKE handle mid round-one output: two byte past the cursor remain
(`buffer_length - buffer_offset = 2`) but the next length-prefixed slice
claims 6 bytes. -/
def opOutMid : PakeOp :=
  { alg := .JPAKE, state := .OUTPUT_X1_X2, sequence := .X2_KEY_SHARE,
    input_step := .STEP_X1_X2, output_step := .STEP_X1_X2,
    role := PSA_PAKE_ROLE_CLIENT, password := 7, ctx_init := true,
    buffer := List.replicate 8 0 ++ [5, 1, 2, 3, 4, 5] ++ List.replicate 322 0,
    buffer_length := 10, buffer_offset := 8 }

/-- C3, counterexample: the computed slice length (6) exceeds the bytes
remaining past the read cursor (10 − 8 = 2), yet `psa_pake_output` does not
return DataCorrupt: it succeeds and copies 6 bytes out, because the guard in
the code compares the length against `buffer_length` alone, not against
`buffer_length − buffer_offset`. -/
theorem psa_pake_output_data_corrupt_cex :
    opOutMid.buffer_length - opOutMid.buffer_offset <
      opOutMid.buffer.getD opOutMid.buffer_offset 0 + 1 ∧
    (psa_pake_output ⟨⟨true, .Success, 0⟩, ⟨0, []⟩⟩ opOutMid
        PSA_PAKE_STEP_KEY_SHARE 100).1 = .Success ∧
    (psa_pake_output ⟨⟨true, .Success, 0⟩, ⟨0, []⟩⟩ opOutMid
        PSA_PAKE_STEP_KEY_SHARE 100).2.2 = some ([5, 1, 2, 3, 4, 5], 6) := by
  refine ⟨by decide, ?_, ?_⟩ <;> rfl

/-- C3, amended: `psa_pake_output` returns DataCorrupt — copying nothing and
not aborting — whenever the computed slice length exceeds `buffer_length`,
the total count of staged bytes (not the bytes remaining past the cursor).
First conjunct: mid-round slices, handle returned unchanged.  Second
conjunct: the first slice of a round, right after a successful engine write
deposits `data` in the buffer: the handle carries the fresh buffer but
nothing is copied. -/
theorem psa_pake_output_data_corrupt_guard :
    (∀ (env : OutputEnv) (op : PakeOp) (step sz : Nat),
      op.alg = .JPAKE → sz ≠ 0 → validPakeStep step →
      (op.state = .OUTPUT_X1_X2 ∨ op.state = .OUTPUT_X2S) →
      op.sequence ≠ .X1_KEY_SHARE →
      seqMatchesStep op.sequence step = true →
      op.buffer_length < op.buffer.getD op.buffer_offset 0 + 1 →
      psa_pake_output env op step sz = (.DataCorrupt, op, none)) ∧
    (∀ (env : OutputEnv) (op : PakeOp) (sz : Nat),
      op.alg = .JPAKE → sz ≠ 0 →
      (op.state = .OUTPUT_X1_X2 ∨ op.state = .OUTPUT_X2S) →
      op.sequence = .X1_KEY_SHARE → env.write.ret = 0 →
      env.write.data.length <
        (if op.state = .OUTPUT_X2S then
           (if op.role = PSA_PAKE_ROLE_SERVER then
              3 + (listWrite op.buffer 0 env.write.data).getD 3 0 + 1
            else (listWrite op.buffer 0 env.write.data).getD 0 0 + 1)
         else (listWrite op.buffer 0 env.write.data).getD 0 0 + 1) →
      psa_pake_output env op PSA_PAKE_STEP_KEY_SHARE sz =
        (.DataCorrupt,
         { op with buffer := listWrite op.buffer 0 env.write.data,
                   buffer_length := env.write.data.length, buffer_offset := 0 },
         none)) := by
  constructor
  · intro env op step sz halg hsz hstep hstate hseq hmatch hlen
    simp only [List.getD_eq_getElem?_getD] at hlen
    rcases hstate with h | h <;>
      simp [psa_pake_output, psa_pake_output_staged, psa_pake_output_core, halg, h, hseq, hmatch,
        hsz, hstep, hlen]
  · intro env op sz halg hsz hstate hseq hret hlen
    simp only [List.getD_eq_getElem?_getD] at hlen
    rcases hstate with h | h
    · simp only [h] at hlen
      rw [if_neg (by decide)] at hlen
      simp [psa_pake_output, psa_pake_output_staged, psa_pake_output_core, halg, h, hseq, hret, hsz,
        validPakeStep, seqMatchesStep, PSA_PAKE_STEP_KEY_SHARE, hlen]
    · by_cases hrole : op.role = PSA_PAKE_ROLE_SERVER <;>
        simp only [h, hrole, if_true, if_false] at hlen <;>
        simp [psa_pake_output, psa_pake_output_staged, psa_pake_output_core, halg, h, hseq, hret, hsz,
          hrole, validPakeStep, seqMatchesStep, PSA_PAKE_STEP_KEY_SHARE, hlen]

/-- A JPAKE handle at the start of round-one output with a single staged
byte that announces a 200-byte slice. -/
def opOutShort : PakeOp :=
  { opOutMid with sequence := .X2_ZK_PUBLIC,
                  buffer := 200 :: List.replicate 335 0,
                  buffer_length := 1, buffer_offset := 0 }

/-- Witness for C3 (amended): the mid-round guard fires on a staged slice
announcing 201 bytes when only 1 is staged, and the first-slice guard fires
when the engine writes a one-byte round blob announcing 201 bytes. -/
theorem psa_pake_output_data_corrupt_guard_witness :
    psa_pake_output ⟨⟨true, .Success, 0⟩, ⟨0, []⟩⟩ opOutShort
        PSA_PAKE_STEP_ZK_PUBLIC 100 = (.DataCorrupt, opOutShort, none) ∧
    psa_pake_output ⟨⟨true, .Success, 0⟩, ⟨0, [200]⟩⟩
        { opOutShort with sequence := .X1_KEY_SHARE }
        PSA_PAKE_STEP_KEY_SHARE 100 =
      (.DataCorrupt,
       { { opOutShort with sequence := .X1_KEY_SHARE } with
           buffer := listWrite { opOutShort with sequence := .X1_KEY_SHARE }.buffer 0 [200],
           buffer_length := 1, buffer_offset := 0 },
       none) := by
  constructor
  · exact psa_pake_output_data_corrupt_guard.1 _ _ _ _ (by decide) (by decide)
      (by decide) (Or.inl (by decide)) (by decide) (by decide) (by decide)
  · exact psa_pake_output_data_corrupt_guard.2 ⟨⟨true, .Success, 0⟩, ⟨0, [200]⟩⟩ _ _
      (by decide) (by decide) (Or.inl (by decide)) (by decide) (by decide)
      (by decide)


/-! ## List lemmas about the staging-buffer write -/

/-- Writing `data` at offset 0 of a buffer at least as long leaves `data`
followed by the old tail. -/
theorem listWrite_zero_eq (buf data : List Nat) (h : data.length ≤ buf.length) :
    listWrite buf 0 data = data ++ buf.drop data.length := by
  unfold listWrite
  simp only [List.take_zero, Nat.zero_add, List.nil_append]
  rw [List.take_of_length_le]
  simp
  omega

/-- A prefix of the freshly written round blob is a prefix of the blob. -/
theorem listWrite_zero_take (buf data : List Nat) (len : Nat)
    (hlen : len ≤ data.length) (h : data.length ≤ buf.length) :
    (listWrite buf 0 data).take len = data.take len := by
  rw [listWrite_zero_eq buf data h, List.take_append_of_le_length hlen]

/-- Reading inside the freshly written round blob reads the blob. -/
theorem listWrite_zero_getD (buf data : List Nat) (i : Nat)
    (hi : i < data.length) (h : data.length ≤ buf.length) :
    (listWrite buf 0 data).getD i 0 = data.getD i 0 := by
  rw [listWrite_zero_eq buf data h, List.getD_append _ _ _ _ hi]

/-! ## Claim C9 — slice selection and copy in psa_pake_output -/

/-- C9: the slices emitted by `psa_pake_output`.  (a) Every mid-round slice
has length `buffer[buffer_offset] + 1` and exactly that many bytes starting
at `buffer_offset` are copied out, with `*output_length` set to that length.
(b) The first slice of round one (X1X2 KeyShare, for either role) has length
`data[0] + 1` of the freshly written round blob `data`, emitted from offset
0.  (c) The X2S KeyShare slice for role Server has length
`3 + data[3] + 1`.  (d) The X2S KeyShare slice for role Client has length
`data[0] + 1`.  In (b)-(d) the cursor has just been reset to 0, so the copy
again starts at `buffer_offset`. -/
theorem psa_pake_output_slice_selection :
    (∀ (env : OutputEnv) (op : PakeOp) (step sz : Nat),
      op.alg = .JPAKE → sz ≠ 0 → validPakeStep step →
      (op.state = .OUTPUT_X1_X2 ∨ op.state = .OUTPUT_X2S) →
      op.sequence ≠ .X1_KEY_SHARE →
      seqMatchesStep op.sequence step = true →
      op.buffer.getD op.buffer_offset 0 + 1 ≤ op.buffer_length →
      op.buffer.getD op.buffer_offset 0 + 1 ≤ sz →
      (psa_pake_output env op step sz).1 = .Success ∧
      (psa_pake_output env op step sz).2.2 =
        some (sliceAt op.buffer op.buffer_offset
                (op.buffer.getD op.buffer_offset 0 + 1),
              op.buffer.getD op.buffer_offset 0 + 1)) ∧
    (∀ (env : OutputEnv) (op : PakeOp) (sz : Nat),
      op.alg = .JPAKE → sz ≠ 0 →
      ((op.state = .OUTPUT_X1_X2 ∧ op.sequence = .X1_KEY_SHARE) ∨
       (op.state = .READY ∧ op.output_step = .STEP_X1_X2)) →
      env.write.ret = 0 →
      env.write.data.length ≤ op.buffer.length →
      env.write.data.getD 0 0 + 1 ≤ env.write.data.length →
      env.write.data.getD 0 0 + 1 ≤ sz →
      (psa_pake_output env op PSA_PAKE_STEP_KEY_SHARE sz).1 = .Success ∧
      (psa_pake_output env op PSA_PAKE_STEP_KEY_SHARE sz).2.2 =
        some (env.write.data.take (env.write.data.getD 0 0 + 1),
              env.write.data.getD 0 0 + 1)) ∧
    (∀ (env : OutputEnv) (op : PakeOp) (sz : Nat),
      op.alg = .JPAKE → sz ≠ 0 →
      ((op.state = .OUTPUT_X2S ∧ op.sequence = .X1_KEY_SHARE) ∨
       (op.state = .READY ∧ op.output_step = .STEP_X2S)) →
      op.role = PSA_PAKE_ROLE_SERVER →
      env.write.ret = 0 →
      env.write.data.length ≤ op.buffer.length →
      3 + env.write.data.getD 3 0 + 1 ≤ env.write.data.length →
      3 + env.write.data.getD 3 0 + 1 ≤ sz →
      (psa_pake_output env op PSA_PAKE_STEP_KEY_SHARE sz).1 = .Success ∧
      (psa_pake_output env op PSA_PAKE_STEP_KEY_SHARE sz).2.2 =
        some (env.write.data.take (3 + env.write.data.getD 3 0 + 1),
              3 + env.write.data.getD 3 0 + 1)) ∧
    (∀ (env : OutputEnv) (op : PakeOp) (sz : Nat),
      op.alg = .JPAKE → sz ≠ 0 →
      ((op.state = .OUTPUT_X2S ∧ op.sequence = .X1_KEY_SHARE) ∨
       (op.state = .READY ∧ op.output_step = .STEP_X2S)) →
      op.role = PSA_PAKE_ROLE_CLIENT →
      env.write.ret = 0 →
      env.write.data.length ≤ op.buffer.length →
      env.write.data.getD 0 0 + 1 ≤ env.write.data.length →
      env.write.data.getD 0 0 + 1 ≤ sz →
      (psa_pake_output env op PSA_PAKE_STEP_KEY_SHARE sz).1 = .Success ∧
      (psa_pake_output env op PSA_PAKE_STEP_KEY_SHARE sz).2.2 =
        some (env.write.data.take (env.write.data.getD 0 0 + 1),
              env.write.data.getD 0 0 + 1)) := by
  refine ⟨?_, ?_, ?_, ?_⟩
  · intro env op step sz halg hsz hstep hstate hseq hmatch hfit hcap
    have hnc : ¬ (op.buffer_length < op.buffer.getD op.buffer_offset 0 + 1) := by
      omega
    have hns : ¬ (sz < op.buffer.getD op.buffer_offset 0 + 1) := by omega
    simp only [List.getD_eq_getElem?_getD] at hnc hns ⊢
    rcases hstate with h | h <;>
      simp [psa_pake_output, psa_pake_output_staged, psa_pake_output_core, halg, h, hseq, hmatch,
        hsz, hstep, hnc, hns, sliceAt] <;>
      split <;> simp
  · intro env op sz halg hsz hstate hret hdlen hl1 hl2
    have h0 : (0 : Nat) < env.write.data.length := by omega
    have hg := listWrite_zero_getD op.buffer env.write.data 0 h0 hdlen
    have ht := listWrite_zero_take op.buffer env.write.data
      (env.write.data.getD 0 0 + 1) hl1 hdlen
    have hnc : ¬ (env.write.data.length < env.write.data.getD 0 0 + 1) := by
      omega
    have hns : ¬ (sz < env.write.data.getD 0 0 + 1) := by omega
    simp only [List.getD_eq_getElem?_getD] at hg ht hnc hns ⊢
    rcases hstate with ⟨h1, h2⟩ | ⟨h1, h2⟩ <;>
      simp [psa_pake_output, psa_pake_output_staged, psa_pake_output_core, halg, h1, h2, hsz, hret,
        hg, ht, hnc, hns, sliceAt, validPakeStep, seqMatchesStep,
        PSA_PAKE_STEP_KEY_SHARE]
  · intro env op sz halg hsz hstate hrole hret hdlen hl1 hl2
    have h3 : (3 : Nat) < env.write.data.length := by omega
    have hg := listWrite_zero_getD op.buffer env.write.data 3 h3 hdlen
    have ht := listWrite_zero_take op.buffer env.write.data
      (3 + env.write.data.getD 3 0 + 1) hl1 hdlen
    have hnc : ¬ (env.write.data.length < 3 + env.write.data.getD 3 0 + 1) := by
      omega
    have hns : ¬ (sz < 3 + env.write.data.getD 3 0 + 1) := by omega
    simp only [List.getD_eq_getElem?_getD] at hg ht hnc hns ⊢
    rcases hstate with ⟨h1, h2⟩ | ⟨h1, h2⟩ <;>
      simp [psa_pake_output, psa_pake_output_staged, psa_pake_output_core, halg, h1, h2, hsz, hret,
        hrole, hg, ht, hnc, hns, sliceAt, validPakeStep, seqMatchesStep,
        PSA_PAKE_STEP_KEY_SHARE]
  · intro env op sz halg hsz hstate hrole hret hdlen hl1 hl2
    have h0 : (0 : Nat) < env.write.data.length := by omega
    have hg := listWrite_zero_getD op.buffer env.write.data 0 h0 hdlen
    have ht := listWrite_zero_take op.buffer env.write.data
      (env.write.data.getD 0 0 + 1) hl1 hdlen
    have hnc : ¬ (env.write.data.length < env.write.data.getD 0 0 + 1) := by
      omega
    have hns : ¬ (sz < env.write.data.getD 0 0 + 1) := by omega
    have hnrole : op.role ≠ PSA_PAKE_ROLE_SERVER := by
      rw [hrole]; decide
    simp only [List.getD_eq_getElem?_getD] at hg ht hnc hns ⊢
    rcases hstate with ⟨h1, h2⟩ | ⟨h1, h2⟩ <;>
      simp [psa_pake_output, psa_pake_output_staged, psa_pake_output_core, halg, h1, h2, hsz, hret,
        hnrole, hg, ht, hnc, hns, sliceAt, validPakeStep, seqMatchesStep,
        PSA_PAKE_STEP_KEY_SHARE]

/-- Witness for C9: concrete slices of each kind.  Mid-round: the handle
`opOutMid` emits the 6-byte slice `[5,1,2,3,4,5]` from offset 8.  First
slices, with round blob `[2,8,9,4,7,7,7,7,1,6]`: the X1X2 KeyShare slice is
`[2,8,9]` (length `data[0]+1 = 3`), the X2S Server KeyShare slice is
`[2,8,9,4,7,7,7,7]` (length `3 + data[3] + 1 = 8`), and the X2S Client
KeyShare slice is `[2,8,9]`. -/
theorem psa_pake_output_slice_selection_witness :
    (psa_pake_output ⟨⟨true, .Success, 0⟩, ⟨0, []⟩⟩ opOutMid
        PSA_PAKE_STEP_KEY_SHARE 100).2.2 = some ([5, 1, 2, 3, 4, 5], 6) ∧
    (psa_pake_output ⟨⟨true, .Success, 0⟩, ⟨0, [2, 8, 9, 4, 7, 7, 7, 7, 1, 6]⟩⟩
        { opDerive with output_step := .STEP_X1_X2 }
        PSA_PAKE_STEP_KEY_SHARE 100).2.2 = some ([2, 8, 9], 3) ∧
    (psa_pake_output ⟨⟨true, .Success, 0⟩, ⟨0, [2, 8, 9, 4, 7, 7, 7, 7, 1, 6]⟩⟩
        { opDerive with output_step := .STEP_X2S, role := PSA_PAKE_ROLE_SERVER }
        PSA_PAKE_STEP_KEY_SHARE 100).2.2 = some ([2, 8, 9, 4, 7, 7, 7, 7], 8) ∧
    (psa_pake_output ⟨⟨true, .Success, 0⟩, ⟨0, [2, 8, 9, 4, 7, 7, 7, 7, 1, 6]⟩⟩
        { opDerive with output_step := .STEP_X2S }
        PSA_PAKE_STEP_KEY_SHARE 100).2.2 = some ([2, 8, 9], 3) := by
  refine ⟨?_, ?_, ?_, ?_⟩
  · exact (psa_pake_output_slice_selection.1 _ opOutMid _ 100 (by decide)
      (by decide) (by decide) (Or.inl (by decide)) (by decide) (by decide)
      (by decide) (by decide)).2.trans (by decide)
  · exact (psa_pake_output_slice_selection.2.1 _ _ 100 (by decide) (by decide)
      (Or.inr ⟨by decide, by decide⟩) (by decide) (by decide) (by decide)
      (by decide)).2.trans (by decide)
  · exact (psa_pake_output_slice_selection.2.2.1 _ _ 100 (by decide) (by decide)
      (Or.inr ⟨by decide, by decide⟩) (by decide) (by decide) (by decide)
      (by decide) (by decide)).2.trans (by decide)
  · exact (psa_pake_output_slice_selection.2.2.2 _ _ 100 (by decide) (by decide)
      (Or.inr ⟨by decide, by decide⟩) (by decide) (by decide) (by decide)
      (by decide) (by decide)).2.trans (by decide)


/-! ## Claim C2 — buffer cursor invariant: definitions -/

/-- Numeric index of a sequence value (the C enum value). -/
def seqIdx : PakeSeq → Nat
  | .SEQ_INVALID => 0
  | .X1_KEY_SHARE => 1
  | .X1_ZK_PUBLIC => 2
  | .X1_ZK_PROOF => 3
  | .X2_KEY_SHARE => 4
  | .X2_ZK_PUBLIC => 5
  | .X2_ZK_PROOF => 6
  | .SEQ_END => 7

/-- Walk `k` length-prefixed ECPoint slices (spec §6.3) starting at `off`:
each slice occupies `buf[off] + 1` bytes. -/
def sliceWalk (buf : List Nat) : Nat → Nat → Nat
  | off, 0 => off
  | off, k + 1 => sliceWalk buf (off + (buf.getD off 0 + 1)) k

/-- The engine contract for `mbedtls_ecjpake_write_round_one` (spec §6.2,
§6.3): the round blob fits the staging buffer and consists of exactly six
length-prefixed slices. -/
def wellFramedRoundOne (d : List Nat) : Prop :=
  sliceWalk d 0 6 = d.length ∧ d.length ≤ PSA_PAKE_BUFFER_SIZE

/-- The engine contract for `mbedtls_ecjpake_write_round_two` (spec §6.3):
three slices; for the Server role the first slice is the ECSchnorrZKP record
of `3 + d[3] + 1` bytes followed by two ordinary slices. -/
def wellFramedRoundTwo (role : Nat) (d : List Nat) : Prop :=
  (if role = PSA_PAKE_ROLE_SERVER then
     sliceWalk d (3 + d.getD 3 0 + 1) 2 = d.length
   else
     sliceWalk d 0 3 = d.length) ∧
  d.length ≤ PSA_PAKE_BUFFER_SIZE

/-- Contract on the round-write oracle of one `psa_pake_output` call: if the
engine call that the handle is about to make succeeds, the deposited blob is
well-framed for the round being written (round one when the handle is at, or
dispatching into, X1X2 output; round two for X2S). -/
def roundWriteContract (op : PakeOp) (w : RoundWriteEnv) : Prop :=
  w.ret = 0 →
  (((op.state = .OUTPUT_X1_X2 ∧ op.sequence = .X1_KEY_SHARE) ∨
    ((op.state = .SETUP ∨ op.state = .READY) ∧ op.output_step = .STEP_X1_X2)) →
    wellFramedRoundOne w.data) ∧
  (((op.state = .OUTPUT_X2S ∧ op.sequence = .X1_KEY_SHARE) ∨
    ((op.state = .SETUP ∨ op.state = .READY) ∧ op.output_step = .STEP_X2S)) →
    wellFramedRoundTwo op.role w.data)

/-- The strengthened handle invariant carried through the reachability
induction: the claimed chain `buffer_offset ≤ buffer_length ≤ capacity`
(conjuncts 2-4, with the capacity being the fixed size of the staging
array), plus the supporting facts that make it inductive: the algorithm is
None or JPAKE, and in an output state the remaining slices of the staged
round walk from the cursor exactly to `buffer_length`, while outside output
states the cursor sits at 0. -/
def PakeInvFull (op : PakeOp) : Prop :=
  (op.alg = .NONE ∨ op.alg = .JPAKE) ∧
  op.buffer.length = PSA_PAKE_BUFFER_SIZE ∧
  op.buffer_length ≤ PSA_PAKE_BUFFER_SIZE ∧
  op.buffer_offset ≤ op.buffer_length ∧
  (op.state = .OUTPUT_X1_X2 →
    1 ≤ seqIdx op.sequence ∧ seqIdx op.sequence ≤ 6 ∧
    (2 ≤ seqIdx op.sequence →
      sliceWalk op.buffer op.buffer_offset (7 - seqIdx op.sequence) =
        op.buffer_length)) ∧
  (op.state = .OUTPUT_X2S →
    1 ≤ seqIdx op.sequence ∧ seqIdx op.sequence ≤ 3 ∧
    (2 ≤ seqIdx op.sequence →
      sliceWalk op.buffer op.buffer_offset (4 - seqIdx op.sequence) =
        op.buffer_length)) ∧
  (op.state ≠ .OUTPUT_X1_X2 → op.state ≠ .OUTPUT_X2S → op.buffer_offset = 0)

/-- The handles reachable through the public API from a zero-initialized
operation, with the engine write oracle of each `psa_pake_output` call
constrained by its documented framing contract (the engine is an external
collaborator, spec §1; all other oracles are unconstrained). -/
inductive PakeReachable : PakeOp → Prop
  | init : PakeReachable PSA_PAKE_OPERATION_INIT
  | setup (op : PakeOp) (cs : Option CipherSuite) :
      PakeReachable op → PakeReachable (psa_pake_setup op cs).2
  | set_password_key (env : KeyAttrEnv) (op : PakeOp) (pw : Nat) :
      PakeReachable op → PakeReachable (psa_pake_set_password_key env op pw).2
  | set_role (op : PakeOp) (role : Nat) :
      PakeReachable op → PakeReachable (psa_pake_set_role op role).2
  | output (env : OutputEnv) (op : PakeOp) (step sz : Nat) :
      PakeReachable op → roundWriteContract op env.write →
      PakeReachable (psa_pake_output env op step sz).2.1
  | input (env : InputEnv) (op : PakeOp) (step : Nat) (inp : List Nat) :
      PakeReachable op → PakeReachable (psa_pake_input env op step inp).2
  | get_implicit_key (env : ImplicitKeyEnv) (op : PakeOp) :
      PakeReachable op → PakeReachable (psa_pake_get_implicit_key env op).2.1
  | abort (op : PakeOp) : PakeReachable op → PakeReachable (psa_pake_abort op).2

/-! ## Claim C2 — supporting lemmas -/

/-- A slice walk never moves the cursor backwards. -/
theorem sliceWalk_le (buf : List Nat) :
    ∀ (k off : Nat), off ≤ sliceWalk buf off k := by
  intro k
  induction k with
  | zero => intro off; simp [sliceWalk]
  | succ k ih =>
    intro off
    have h := ih (off + (buf.getD off 0 + 1))
    simp only [sliceWalk]
    omega

/-- A slice walk that ends exactly at `L` only reads indices below `L`, so it
is preserved when moving to a buffer that agrees with the original below
`L`. -/
theorem sliceWalk_agree (a b : List Nat) (L : Nat)
    (hag : ∀ i, i < L → b.getD i 0 = a.getD i 0) :
    ∀ (k off : Nat), sliceWalk a off k = L → sliceWalk b off k = L := by
  intro k
  induction k with
  | zero => intro off h; simpa [sliceWalk] using h
  | succ k ih =>
    intro off h
    have hnext : sliceWalk a (off + (a.getD off 0 + 1)) k = L := h
    have hge := sliceWalk_le a k (off + (a.getD off 0 + 1))
    have hofflt : off < L := by omega
    have hread := hag off hofflt
    simp only [sliceWalk, hread]
    exact ih _ hnext

/-- The invariant holds for the zero-initialized handle. -/
theorem pakeInvFull_init : PakeInvFull PSA_PAKE_OPERATION_INIT := by
  refine ⟨Or.inl rfl, by decide, by decide, by decide, ?_, ?_, fun _ _ => rfl⟩ <;>
    intro h <;> exact absurd h (by decide)

/-- The invariant is preserved by `psa_pake_abort`. -/
theorem pakeInvFull_abort (op : PakeOp) (h : PakeInvFull op) :
    PakeInvFull (psa_pake_abort op).2 := by
  rcases h.1 with halg | halg
  · simpa [psa_pake_abort, halg] using h
  · rw [psa_pake_abort_of_jpake op halg]
    exact pakeInvFull_init


/-- Aborting any handle with `alg = JPAKE` lands in the (invariant-satisfying)
initial state. -/
theorem pakeInvFull_abort_any (op : PakeOp) (h : op.alg = .JPAKE) :
    PakeInvFull (psa_pake_abort op).2 := by
  rw [psa_pake_abort_of_jpake op h]
  exact pakeInvFull_init

/-- The invariant is preserved by `psa_pake_setup`. -/
theorem pakeInvFull_setup (op : PakeOp) (cs : Option CipherSuite)
    (h : PakeInvFull op) : PakeInvFull (psa_pake_setup op cs).2 := by
  unfold psa_pake_setup
  rcases cs with _ | c
  · split_ifs <;> exact h
  · split_ifs with h1
    · exact h
    · dsimp only
      split_ifs with h2 h3 h4
      · exact h
      · exact h
      · refine ⟨Or.inr h3, by simp [pakeZeroBuffer], Nat.zero_le _,
          Nat.le_refl _, ?_, ?_, fun _ _ => rfl⟩
        · intro hx; exact PakeState.noConfusion hx
        · intro hx; exact PakeState.noConfusion hx
      · exact h

/-- The invariant is preserved by `psa_pake_set_password_key`. -/
theorem pakeInvFull_set_password_key (env : KeyAttrEnv) (op : PakeOp) (pw : Nat)
    (h : PakeInvFull op) : PakeInvFull (psa_pake_set_password_key env op pw).2 := by
  unfold psa_pake_set_password_key
  split_ifs <;> exact h

/-- The invariant is preserved by `psa_pake_set_role`. -/
theorem pakeInvFull_set_role (op : PakeOp) (role : Nat)
    (h : PakeInvFull op) : PakeInvFull (psa_pake_set_role op role).2 := by
  unfold psa_pake_set_role
  split_ifs <;> exact h

/-- The invariant is preserved by the lazy engine initialization. -/
theorem pakeInvFull_ecjpake_setup (env : EcjSetupEnv) (op : PakeOp)
    (h : PakeInvFull op) (hst : op.state = .SETUP) :
    PakeInvFull (psa_pake_ecjpake_setup env op).2 := by
  have hoff : op.buffer_offset = 0 :=
    h.2.2.2.2.2.2 (by rw [hst]; decide) (by rw [hst]; decide)
  unfold psa_pake_ecjpake_setup
  split_ifs <;>
    first
      | exact h
      | exact ⟨h.1, h.2.1, h.2.2.1, h.2.2.2.1,
          fun hx => PakeState.noConfusion hx,
          fun hx => PakeState.noConfusion hx, fun _ _ => hoff⟩

/-- The invariant is preserved by `psa_pake_get_implicit_key`. -/
theorem pakeInvFull_get_implicit_key (env : ImplicitKeyEnv) (op : PakeOp)
    (h : PakeInvFull op) : PakeInvFull (psa_pake_get_implicit_key env op).2.1 := by
  unfold psa_pake_get_implicit_key
  split_ifs with h1 h2 h3
  · exact h
  · exact pakeInvFull_abort_any _ h2
  · exact pakeInvFull_abort_any _ h2
  · exact h


/-- Writing into the staging buffer at an in-bounds offset preserves its
fixed capacity. -/
theorem listWrite_length (buf : List Nat) (off : Nat) (data : List Nat)
    (h : off ≤ buf.length) : (listWrite buf off data).length = buf.length := by
  simp only [listWrite, List.length_take, List.length_append, List.length_drop]
  omega

/-- The invariant is preserved by the post-dispatch input path. -/
theorem pakeInvFull_input_core (rret : Int) (op : PakeOp) (step : Nat)
    (inp : List Nat) (h : PakeInvFull op) (halg : op.alg = .JPAKE)
    (hst : op.state = .INPUT_X1_X2 ∨ op.state = .INPUT_X4S) :
    PakeInvFull (psa_pake_input_core rret op step inp).2 := by
  obtain ⟨hal, hbl, hlen, hoff, hx1, hx2, hnot⟩ := h
  have hA : op.state ≠ .OUTPUT_X1_X2 := by
    rcases hst with hh | hh <;> simp [hh]
  have hB : op.state ≠ .OUTPUT_X2S := by
    rcases hst with hh | hh <;> simp [hh]
  have hoff0 : op.buffer_offset = 0 := hnot hA hB
  unfold psa_pake_input_core
  dsimp only
  split_ifs with h1 h2 h3 h4 <;>
    first
      | exact ⟨hal, hbl, hlen, hoff, hx1, hx2, hnot⟩
      | exact pakeInvFull_abort_any _ halg
      | exact ⟨Or.inr halg, by simp [pakeZeroBuffer], Nat.zero_le _,
          by simp [hoff0], fun hx => PakeState.noConfusion hx,
          fun hx => PakeState.noConfusion hx, fun _ _ => hoff0⟩
      | (simp only [not_or, not_lt] at h1
         exact ⟨Or.inr halg,
           by rw [listWrite_length op.buffer op.buffer_length inp (by omega)]
              exact hbl,
           by show op.buffer_length + inp.length ≤ PSA_PAKE_BUFFER_SIZE
              simp only [PSA_PAKE_BUFFER_SIZE] at h1 hlen ⊢
              omega,
           by simp [hoff0], fun hx => absurd hx hA,
           fun hx => absurd hx hB, fun _ _ => hoff0⟩)

/-- Dispatching a READY handle into round-one input. -/
theorem psa_pake_input_staged_dispatch_x1x2 (rret : Int) (op : PakeOp)
    (inp : List Nat) (hr : op.state = .READY)
    (hin : op.input_step = .STEP_X1_X2) :
    psa_pake_input_staged rret op PSA_PAKE_STEP_KEY_SHARE inp =
      psa_pake_input_core rret
        { op with state := .INPUT_X1_X2, sequence := .X1_KEY_SHARE }
        PSA_PAKE_STEP_KEY_SHARE inp := by
  simp [psa_pake_input_staged, hr, hin]

/-- Dispatching a READY handle into round-two input. -/
theorem psa_pake_input_staged_dispatch_x2s (rret : Int) (op : PakeOp)
    (inp : List Nat) (hr : op.state = .READY)
    (hin : op.input_step = .STEP_X2S) :
    psa_pake_input_staged rret op PSA_PAKE_STEP_KEY_SHARE inp =
      psa_pake_input_core rret
        { op with state := .INPUT_X4S, sequence := .X1_KEY_SHARE }
        PSA_PAKE_STEP_KEY_SHARE inp := by
  simp [psa_pake_input_staged, hr, hin]

/-- The invariant is preserved by the staged input path. -/
theorem pakeInvFull_input_staged (rret : Int) (op : PakeOp) (step : Nat)
    (inp : List Nat) (h : PakeInvFull op) (halg : op.alg = .JPAKE) :
    PakeInvFull (psa_pake_input_staged rret op step inp).2 := by
  by_cases hel : op.state = .READY ∨ op.state = .INPUT_X1_X2 ∨ op.state = .INPUT_X4S
  case neg =>
    simp [psa_pake_input_staged, hel]
    exact h
  rcases hel with hr | hst | hst
  · have hoff0 : op.buffer_offset = 0 :=
      h.2.2.2.2.2.2 (by rw [hr]; decide) (by rw [hr]; decide)
    by_cases hks : step = PSA_PAKE_STEP_KEY_SHARE
    · cases hin : op.input_step with
      | STEP_X1_X2 =>
        rw [hks, psa_pake_input_staged_dispatch_x1x2 rret op inp hr hin]
        exact pakeInvFull_input_core rret _ _ inp
          ⟨h.1, h.2.1, h.2.2.1, h.2.2.2.1, fun hx => PakeState.noConfusion hx,
            fun hx => PakeState.noConfusion hx, fun _ _ => hoff0⟩
          halg (Or.inl rfl)
      | STEP_X2S =>
        rw [hks, psa_pake_input_staged_dispatch_x2s rret op inp hr hin]
        exact pakeInvFull_input_core rret _ _ inp
          ⟨h.1, h.2.1, h.2.2.1, h.2.2.2.1, fun hx => PakeState.noConfusion hx,
            fun hx => PakeState.noConfusion hx, fun _ _ => hoff0⟩
          halg (Or.inr rfl)
      | STEP_INVALID =>
        simp [psa_pake_input_staged, hr, hks, hin]
        exact h
      | STEP_DERIVE =>
        simp [psa_pake_input_staged, hr, hks, hin]
        exact h
    · simp [psa_pake_input_staged, hr, hks]
      exact h
  · have hne : op.state ≠ .READY := by rw [hst]; decide
    have heq : psa_pake_input_staged rret op step inp =
        psa_pake_input_core rret op step inp := by
      simp [psa_pake_input_staged, hst]
    rw [heq]
    exact pakeInvFull_input_core rret op step inp h halg (Or.inl hst)
  · have heq : psa_pake_input_staged rret op step inp =
        psa_pake_input_core rret op step inp := by
      simp [psa_pake_input_staged, hst]
    rw [heq]
    exact pakeInvFull_input_core rret op step inp h halg (Or.inr hst)

/-- The lazy engine initialization never changes the algorithm selector. -/
theorem psa_pake_ecjpake_setup_alg (env : EcjSetupEnv) (op : PakeOp) :
    (psa_pake_ecjpake_setup env op).2.alg = op.alg := by
  unfold psa_pake_ecjpake_setup
  split_ifs <;> rfl

/-- The invariant is preserved by `psa_pake_input`. -/
theorem pakeInvFull_input (env : InputEnv) (op : PakeOp) (step : Nat)
    (inp : List Nat) (h : PakeInvFull op) :
    PakeInvFull (psa_pake_input env op step inp).2 := by
  unfold psa_pake_input
  by_cases hg1 : op.alg = .NONE ∨ op.state = .INVALID
  · rw [if_pos hg1]; exact h
  rw [if_neg hg1]
  by_cases hg2 : inp.length = 0
  · rw [if_pos hg2]; exact h
  rw [if_neg hg2]
  by_cases hja : op.alg = .JPAKE
  case neg => rw [if_neg hja]; exact h
  rw [if_pos hja]
  by_cases hvs : validPakeStep step
  case neg => rw [if_pos hvs]; exact h
  rw [if_neg (not_not_intro hvs)]
  by_cases hsetup : op.state = .SETUP
  case neg =>
    rw [if_neg hsetup]
    exact pakeInvFull_input_staged env.read_ret op step inp h hja
  rw [if_pos hsetup]
  have hfull1 : PakeInvFull (psa_pake_ecjpake_setup env.setup op).2 :=
    pakeInvFull_ecjpake_setup env.setup op h hsetup
  have halg1 : (psa_pake_ecjpake_setup env.setup op).2.alg = .JPAKE := by
    rw [psa_pake_ecjpake_setup_alg]; exact hja
  cases hres : psa_pake_ecjpake_setup env.setup op with
  | mk st op1 =>
    rw [hres] at hfull1 halg1
    cases st <;>
      first
        | exact pakeInvFull_input_staged env.read_ret op1 step inp hfull1 halg1
        | exact pakeInvFull_abort op1 hfull1


/-- One step of a slice walk, peeled off the front. -/
theorem sliceWalk_peel (buf : List Nat) (off k L : Nat)
    (h : sliceWalk buf off (k + 1) = L) :
    sliceWalk buf (off + (buf.getD off 0 + 1)) k = L := h

/-- The invariant is preserved by the post-dispatch output path, assuming the
engine framing contract for whichever round write the call performs. -/
theorem pakeInvFull_output_core (w : RoundWriteEnv) (op : PakeOp)
    (step sz : Nat) (h : PakeInvFull op) (halg : op.alg = .JPAKE)
    (hst : op.state = .OUTPUT_X1_X2 ∨ op.state = .OUTPUT_X2S)
    (hwf1 : op.state = .OUTPUT_X1_X2 → op.sequence = .X1_KEY_SHARE →
      w.ret = 0 → wellFramedRoundOne w.data)
    (hwf2 : op.state = .OUTPUT_X2S → op.sequence = .X1_KEY_SHARE →
      w.ret = 0 → wellFramedRoundTwo op.role w.data) :
    PakeInvFull (psa_pake_output_core w op step sz).2.1 := by
  obtain ⟨hal, hbl, hlen, hoff, hx1, hx2, hnot⟩ := h
  have hORIG : PakeInvFull op := ⟨hal, hbl, hlen, hoff, hx1, hx2, hnot⟩
  rcases hst with hs | hs
  · obtain ⟨hi1, hi6, hwalk⟩ := hx1 hs
    by_cases hm : seqMatchesStep op.sequence step = true
    case neg =>
      have hm' : seqMatchesStep op.sequence step = false := by
        cases hq : seqMatchesStep op.sequence step
        · rfl
        · exact absurd hq hm
      have hres : (psa_pake_output_core w op step sz).2.1 = op := by
        simp [psa_pake_output_core, hm', -List.getD_eq_getElem?_getD]
      rw [hres]; exact hORIG
    cases hsq : op.sequence with
    | SEQ_INVALID => rw [hsq] at hi1; exact absurd hi1 (by decide)
    | SEQ_END => rw [hsq] at hi6; exact absurd hi6 (by decide)
    | X1_KEY_SHARE =>
      rw [hsq] at hm
      by_cases hw : w.ret = 0
      case neg =>
        have hres : (psa_pake_output_core w op step sz).2.1 = (psa_pake_abort op).2 := by
          simp [psa_pake_output_core, hm, hsq, hw, -List.getD_eq_getElem?_getD]
        rw [hres]; exact pakeInvFull_abort_any _ halg
      obtain ⟨hw6, hdl⟩ := hwf1 hs hsq hw
      have hdl' : w.data.length ≤ op.buffer.length := by rw [hbl]; exact hdl
      have hbl2 : (listWrite op.buffer 0 w.data).length = PSA_PAKE_BUFFER_SIZE := by
        rw [listWrite_length op.buffer 0 w.data (Nat.zero_le _)]; exact hbl
      have hag : ∀ i, i < w.data.length →
          (listWrite op.buffer 0 w.data).getD i 0 = w.data.getD i 0 :=
        fun i hi => listWrite_zero_getD op.buffer w.data i hi hdl'
      have hwB : sliceWalk (listWrite op.buffer 0 w.data) 0 6 = w.data.length :=
        sliceWalk_agree w.data (listWrite op.buffer 0 w.data) w.data.length hag 6 0 hw6
      have hwB2 : sliceWalk (listWrite op.buffer 0 w.data)
          ((listWrite op.buffer 0 w.data).getD 0 0 + 1) 5 = w.data.length := by
        have h' := sliceWalk_peel (listWrite op.buffer 0 w.data) 0 5 w.data.length hwB
        rwa [Nat.zero_add] at h'
      have hfit : (listWrite op.buffer 0 w.data).getD 0 0 + 1 ≤ w.data.length :=
        le_trans (sliceWalk_le _ _ _) (le_of_eq hwB2)
      by_cases hdc : w.data.length < (listWrite op.buffer 0 w.data).getD 0 0 + 1
      · exact absurd hdc (by omega)
      by_cases hbts : sz < (listWrite op.buffer 0 w.data).getD 0 0 + 1
      · have hres : (psa_pake_output_core w op step sz).2.1 =
            (psa_pake_abort
              { op with buffer := listWrite op.buffer 0 w.data,
                        buffer_length := w.data.length, buffer_offset := 0 }).2 := by
          simp [psa_pake_output_core, hm, hsq, hs, hw, hdc, hbts,
            -List.getD_eq_getElem?_getD]
        rw [hres]; exact pakeInvFull_abort_any _ halg
      have hres : (psa_pake_output_core w op step sz).2.1 =
          { op with buffer := listWrite op.buffer 0 w.data,
                    buffer_length := w.data.length,
                    buffer_offset := (listWrite op.buffer 0 w.data).getD 0 0 + 1,
                    sequence := .X1_ZK_PUBLIC } := by
        simp [psa_pake_output_core, hm, hsq, hs, hw, hdc, hbts, seqNext,
          -List.getD_eq_getElem?_getD]
      rw [hres]
      refine ⟨Or.inr halg, hbl2, hdl, hfit, fun _ => ?_, fun hx => ?_,
        fun hA _ => absurd hs hA⟩
      · exact ⟨by simp [seqIdx], by simp [seqIdx], fun _ => hwB2⟩
      · rw [hs] at hx; exact PakeState.noConfusion hx
    | X1_ZK_PUBLIC =>
      rw [hsq] at hm
      have hwk : sliceWalk op.buffer op.buffer_offset 5 = op.buffer_length := by
        have h5 := hwalk
        rw [hsq] at h5
        exact h5 (by decide)
      have hwk2 : sliceWalk op.buffer
          (op.buffer_offset + (op.buffer.getD op.buffer_offset 0 + 1)) 4 =
          op.buffer_length := sliceWalk_peel _ _ _ _ hwk
      have hadv : op.buffer_offset + (op.buffer.getD op.buffer_offset 0 + 1) ≤
          op.buffer_length := le_trans (sliceWalk_le _ _ _) (le_of_eq hwk2)
      by_cases hdc : op.buffer_length < op.buffer.getD op.buffer_offset 0 + 1
      · have hres : (psa_pake_output_core w op step sz).2.1 = op := by
          simp [psa_pake_output_core, hm, hsq, hdc, -List.getD_eq_getElem?_getD]
        rw [hres]; exact hORIG
      by_cases hbts : sz < op.buffer.getD op.buffer_offset 0 + 1
      · have hres : (psa_pake_output_core w op step sz).2.1 = (psa_pake_abort op).2 := by
          simp [psa_pake_output_core, hm, hsq, hdc, hbts, -List.getD_eq_getElem?_getD]
        rw [hres]; exact pakeInvFull_abort_any _ halg
      have hres : (psa_pake_output_core w op step sz).2.1 =
          { op with buffer_offset :=
                      op.buffer_offset + (op.buffer.getD op.buffer_offset 0 + 1),
                    sequence := .X1_ZK_PROOF } := by
        simp [psa_pake_output_core, hm, hsq, hs, hdc, hbts, seqNext,
          -List.getD_eq_getElem?_getD]
      rw [hres]
      refine ⟨Or.inr halg, hbl, hlen, hadv, fun _ => ?_, fun hx => ?_,
        fun hA _ => absurd hs hA⟩
      · exact ⟨by simp [seqIdx], by simp [seqIdx], fun _ => hwk2⟩
      · rw [hs] at hx; exact PakeState.noConfusion hx
    | X1_ZK_PROOF =>
      rw [hsq] at hm
      have hwk : sliceWalk op.buffer op.buffer_offset 4 = op.buffer_length := by
        have h5 := hwalk
        rw [hsq] at h5
        exact h5 (by decide)
      have hwk2 : sliceWalk op.buffer
          (op.buffer_offset + (op.buffer.getD op.buffer_offset 0 + 1)) 3 =
          op.buffer_length := sliceWalk_peel _ _ _ _ hwk
      have hadv : op.buffer_offset + (op.buffer.getD op.buffer_offset 0 + 1) ≤
          op.buffer_length := le_trans (sliceWalk_le _ _ _) (le_of_eq hwk2)
      by_cases hdc : op.buffer_length < op.buffer.getD op.buffer_offset 0 + 1
      · have hres : (psa_pake_output_core w op step sz).2.1 = op := by
          simp [psa_pake_output_core, hm, hsq, hdc, -List.getD_eq_getElem?_getD]
        rw [hres]; exact hORIG
      by_cases hbts : sz < op.buffer.getD op.buffer_offset 0 + 1
      · have hres : (psa_pake_output_core w op step sz).2.1 = (psa_pake_abort op).2 := by
          simp [psa_pake_output_core, hm, hsq, hdc, hbts, -List.getD_eq_getElem?_getD]
        rw [hres]; exact pakeInvFull_abort_any _ halg
      have hres : (psa_pake_output_core w op step sz).2.1 =
          { op with buffer_offset :=
                      op.buffer_offset + (op.buffer.getD op.buffer_offset 0 + 1),
                    sequence := .X2_KEY_SHARE } := by
        simp [psa_pake_output_core, hm, hsq, hs, hdc, hbts, seqNext,
          -List.getD_eq_getElem?_getD]
      rw [hres]
      refine ⟨Or.inr halg, hbl, hlen, hadv, fun _ => ?_, fun hx => ?_,
        fun hA _ => absurd hs hA⟩
      · exact ⟨by simp [seqIdx], by simp [seqIdx], fun _ => hwk2⟩
      · rw [hs] at hx; exact PakeState.noConfusion hx
    | X2_KEY_SHARE =>
      rw [hsq] at hm
      have hwk : sliceWalk op.buffer op.buffer_offset 3 = op.buffer_length := by
        have h5 := hwalk
        rw [hsq] at h5
        exact h5 (by decide)
      have hwk2 : sliceWalk op.buffer
          (op.buffer_offset + (op.buffer.getD op.buffer_offset 0 + 1)) 2 =
          op.buffer_length := sliceWalk_peel _ _ _ _ hwk
      have hadv : op.buffer_offset + (op.buffer.getD op.buffer_offset 0 + 1) ≤
          op.buffer_length := le_trans (sliceWalk_le _ _ _) (le_of_eq hwk2)
      by_cases hdc : op.buffer_length < op.buffer.getD op.buffer_offset 0 + 1
      · have hres : (psa_pake_output_core w op step sz).2.1 = op := by
          simp [psa_pake_output_core, hm, hsq, hdc, -List.getD_eq_getElem?_getD]
        rw [hres]; exact hORIG
      by_cases hbts : sz < op.buffer.getD op.buffer_offset 0 + 1
      · have hres : (psa_pake_output_core w op step sz).2.1 = (psa_pake_abort op).2 := by
          simp [psa_pake_output_core, hm, hsq, hdc, hbts, -List.getD_eq_getElem?_getD]
        rw [hres]; exact pakeInvFull_abort_any _ halg
      have hres : (psa_pake_output_core w op step sz).2.1 =
          { op with buffer_offset :=
                      op.buffer_offset + (op.buffer.getD op.buffer_offset 0 + 1),
                    sequence := .X2_ZK_PUBLIC } := by
        simp [psa_pake_output_core, hm, hsq, hs, hdc, hbts, seqNext,
          -List.getD_eq_getElem?_getD]
      rw [hres]
      refine ⟨Or.inr halg, hbl, hlen, hadv, fun _ => ?_, fun hx => ?_,
        fun hA _ => absurd hs hA⟩
      · exact ⟨by simp [seqIdx], by simp [seqIdx], fun _ => hwk2⟩
      · rw [hs] at hx; exact PakeState.noConfusion hx
    | X2_ZK_PUBLIC =>
      rw [hsq] at hm
      have hwk : sliceWalk op.buffer op.buffer_offset 2 = op.buffer_length := by
        have h5 := hwalk
        rw [hsq] at h5
        exact h5 (by decide)
      have hwk2 : sliceWalk op.buffer
          (op.buffer_offset + (op.buffer.getD op.buffer_offset 0 + 1)) 1 =
          op.buffer_length := sliceWalk_peel _ _ _ _ hwk
      have hadv : op.buffer_offset + (op.buffer.getD op.buffer_offset 0 + 1) ≤
          op.buffer_length := le_trans (sliceWalk_le _ _ _) (le_of_eq hwk2)
      by_cases hdc : op.buffer_length < op.buffer.getD op.buffer_offset 0 + 1
      · have hres : (psa_pake_output_core w op step sz).2.1 = op := by
          simp [psa_pake_output_core, hm, hsq, hdc, -List.getD_eq_getElem?_getD]
        rw [hres]; exact hORIG
      by_cases hbts : sz < op.buffer.getD op.buffer_offset 0 + 1
      · have hres : (psa_pake_output_core w op step sz).2.1 = (psa_pake_abort op).2 := by
          simp [psa_pake_output_core, hm, hsq, hdc, hbts, -List.getD_eq_getElem?_getD]
        rw [hres]; exact pakeInvFull_abort_any _ halg
      have hres : (psa_pake_output_core w op step sz).2.1 =
          { op with buffer_offset :=
                      op.buffer_offset + (op.buffer.getD op.buffer_offset 0 + 1),
                    sequence := .X2_ZK_PROOF } := by
        simp [psa_pake_output_core, hm, hsq, hs, hdc, hbts, seqNext,
          -List.getD_eq_getElem?_getD]
      rw [hres]
      refine ⟨Or.inr halg, hbl, hlen, hadv, fun _ => ?_, fun hx => ?_,
        fun hA _ => absurd hs hA⟩
      · exact ⟨by simp [seqIdx], by simp [seqIdx], fun _ => hwk2⟩
      · rw [hs] at hx; exact PakeState.noConfusion hx
    | X2_ZK_PROOF =>
      rw [hsq] at hm
      by_cases hdc : op.buffer_length < op.buffer.getD op.buffer_offset 0 + 1
      · have hres : (psa_pake_output_core w op step sz).2.1 = op := by
          simp [psa_pake_output_core, hm, hsq, hdc, -List.getD_eq_getElem?_getD]
        rw [hres]; exact hORIG
      by_cases hbts : sz < op.buffer.getD op.buffer_offset 0 + 1
      · have hres : (psa_pake_output_core w op step sz).2.1 = (psa_pake_abort op).2 := by
          simp [psa_pake_output_core, hm, hsq, hdc, hbts, -List.getD_eq_getElem?_getD]
        rw [hres]; exact pakeInvFull_abort_any _ halg
      have hres : (psa_pake_output_core w op step sz).2.1 =
          { op with buffer := pakeZeroBuffer, buffer_length := 0,
                    buffer_offset := 0, state := .READY,
                    output_step := roundStepNext op.output_step,
                    sequence := .SEQ_INVALID } := by
        simp [psa_pake_output_core, hm, hsq, hs, hdc, hbts,
          -List.getD_eq_getElem?_getD]
      rw [hres]
      exact ⟨Or.inr halg, by simp [pakeZeroBuffer], Nat.zero_le _, Nat.le_refl _,
        fun hx => PakeState.noConfusion hx, fun hx => PakeState.noConfusion hx,
        fun _ _ => rfl⟩
  · obtain ⟨hi1, hi3, hwalk⟩ := hx2 hs
    by_cases hm : seqMatchesStep op.sequence step = true
    case neg =>
      have hm2 : seqMatchesStep op.sequence step = false := by
        cases hq : seqMatchesStep op.sequence step
        · rfl
        · exact absurd hq hm
      have hres : (psa_pake_output_core w op step sz).2.1 = op := by
        simp [psa_pake_output_core, hm2, -List.getD_eq_getElem?_getD]
      rw [hres]; exact hORIG
    cases hsq : op.sequence with
    | SEQ_INVALID => rw [hsq] at hi1; exact absurd hi1 (by decide)
    | SEQ_END => rw [hsq] at hi3; exact absurd hi3 (by decide)
    | X2_KEY_SHARE => rw [hsq] at hi3; exact absurd hi3 (by decide)
    | X2_ZK_PUBLIC => rw [hsq] at hi3; exact absurd hi3 (by decide)
    | X2_ZK_PROOF => rw [hsq] at hi3; exact absurd hi3 (by decide)
    | X1_KEY_SHARE =>
      rw [hsq] at hm
      by_cases hw : w.ret = 0
      case neg =>
        have hres : (psa_pake_output_core w op step sz).2.1 = (psa_pake_abort op).2 := by
          simp [psa_pake_output_core, hm, hsq, hw, -List.getD_eq_getElem?_getD]
        rw [hres]; exact pakeInvFull_abort_any _ halg
      obtain ⟨hw2, hdl⟩ := hwf2 hs hsq hw
      have hdl2 : w.data.length ≤ op.buffer.length := by rw [hbl]; exact hdl
      have hbl2 : (listWrite op.buffer 0 w.data).length = PSA_PAKE_BUFFER_SIZE := by
        rw [listWrite_length op.buffer 0 w.data (Nat.zero_le _)]; exact hbl
      have hag : ∀ i, i < w.data.length →
          (listWrite op.buffer 0 w.data).getD i 0 = w.data.getD i 0 :=
        fun i hi => listWrite_zero_getD op.buffer w.data i hi hdl2
      by_cases hrole : op.role = PSA_PAKE_ROLE_SERVER
      · rw [if_pos hrole] at hw2
        have h4 : 3 + w.data.getD 3 0 + 1 ≤ w.data.length :=
          le_trans (sliceWalk_le _ _ _) (le_of_eq hw2)
        have hag3 : (listWrite op.buffer 0 w.data).getD 3 0 = w.data.getD 3 0 :=
          hag 3 (by omega)
        have hwB : sliceWalk (listWrite op.buffer 0 w.data)
            (3 + w.data.getD 3 0 + 1) 2 = w.data.length :=
          sliceWalk_agree w.data (listWrite op.buffer 0 w.data) w.data.length
            hag 2 _ hw2
        have hwB2 : sliceWalk (listWrite op.buffer 0 w.data)
            (3 + (listWrite op.buffer 0 w.data).getD 3 0 + 1) 2 = w.data.length := by
          rw [hag3]; exact hwB
        have hfit : 3 + (listWrite op.buffer 0 w.data).getD 3 0 + 1 ≤ w.data.length :=
          le_trans (sliceWalk_le _ _ _) (le_of_eq hwB2)
        by_cases hdc : w.data.length <
            3 + (listWrite op.buffer 0 w.data).getD 3 0 + 1
        · exact absurd hdc (by omega)
        by_cases hbts : sz < 3 + (listWrite op.buffer 0 w.data).getD 3 0 + 1
        · have hres : (psa_pake_output_core w op step sz).2.1 =
              (psa_pake_abort
                { op with buffer := listWrite op.buffer 0 w.data,
                          buffer_length := w.data.length, buffer_offset := 0 }).2 := by
            simp [psa_pake_output_core, hm, hsq, hs, hw, hrole, hdc, hbts,
              -List.getD_eq_getElem?_getD]
          rw [hres]; exact pakeInvFull_abort_any _ halg
        have hres : (psa_pake_output_core w op step sz).2.1 =
            { op with buffer := listWrite op.buffer 0 w.data,
                      buffer_length := w.data.length,
                      buffer_offset :=
                        3 + (listWrite op.buffer 0 w.data).getD 3 0 + 1,
                      sequence := .X1_ZK_PUBLIC } := by
          simp [psa_pake_output_core, hm, hsq, hs, hw, hrole, hdc, hbts, seqNext,
            -List.getD_eq_getElem?_getD]
        rw [hres]
        refine ⟨Or.inr halg, hbl2, hdl, hfit, fun hx => ?_, fun _ => ?_,
          fun _ hB => absurd hs hB⟩
        · rw [hs] at hx; exact PakeState.noConfusion hx
        · exact ⟨by simp [seqIdx], by simp [seqIdx], fun _ => hwB2⟩
      · rw [if_neg hrole] at hw2
        have hwB : sliceWalk (listWrite op.buffer 0 w.data) 0 3 = w.data.length :=
          sliceWalk_agree w.data (listWrite op.buffer 0 w.data) w.data.length
            hag 3 0 hw2
        have hwB2 : sliceWalk (listWrite op.buffer 0 w.data)
            ((listWrite op.buffer 0 w.data).getD 0 0 + 1) 2 = w.data.length := by
          have hp := sliceWalk_peel (listWrite op.buffer 0 w.data) 0 2
            w.data.length hwB
          rwa [Nat.zero_add] at hp
        have hfit : (listWrite op.buffer 0 w.data).getD 0 0 + 1 ≤ w.data.length :=
          le_trans (sliceWalk_le _ _ _) (le_of_eq hwB2)
        by_cases hdc : w.data.length < (listWrite op.buffer 0 w.data).getD 0 0 + 1
        · exact absurd hdc (by omega)
        by_cases hbts : sz < (listWrite op.buffer 0 w.data).getD 0 0 + 1
        · have hres : (psa_pake_output_core w op step sz).2.1 =
              (psa_pake_abort
                { op with buffer := listWrite op.buffer 0 w.data,
                          buffer_length := w.data.length, buffer_offset := 0 }).2 := by
            simp [psa_pake_output_core, hm, hsq, hs, hw, hrole, hdc, hbts,
              -List.getD_eq_getElem?_getD]
          rw [hres]; exact pakeInvFull_abort_any _ halg
        have hres : (psa_pake_output_core w op step sz).2.1 =
            { op with buffer := listWrite op.buffer 0 w.data,
                      buffer_length := w.data.length,
                      buffer_offset := (listWrite op.buffer 0 w.data).getD 0 0 + 1,
                      sequence := .X1_ZK_PUBLIC } := by
          simp [psa_pake_output_core, hm, hsq, hs, hw, hrole, hdc, hbts, seqNext,
            -List.getD_eq_getElem?_getD]
        rw [hres]
        refine ⟨Or.inr halg, hbl2, hdl, hfit, fun hx => ?_, fun _ => ?_,
          fun _ hB => absurd hs hB⟩
        · rw [hs] at hx; exact PakeState.noConfusion hx
        · exact ⟨by simp [seqIdx], by simp [seqIdx], fun _ => hwB2⟩
    | X1_ZK_PUBLIC =>
      rw [hsq] at hm
      have hwk : sliceWalk op.buffer op.buffer_offset 2 = op.buffer_length := by
        have h5 := hwalk
        rw [hsq] at h5
        exact h5 (by decide)
      have hwk2 : sliceWalk op.buffer
          (op.buffer_offset + (op.buffer.getD op.buffer_offset 0 + 1)) 1 =
          op.buffer_length := sliceWalk_peel _ _ _ _ hwk
      have hadv : op.buffer_offset + (op.buffer.getD op.buffer_offset 0 + 1) ≤
          op.buffer_length := le_trans (sliceWalk_le _ _ _) (le_of_eq hwk2)
      by_cases hdc : op.buffer_length < op.buffer.getD op.buffer_offset 0 + 1
      · have hres : (psa_pake_output_core w op step sz).2.1 = op := by
          simp [psa_pake_output_core, hm, hsq, hdc, -List.getD_eq_getElem?_getD]
        rw [hres]; exact hORIG
      by_cases hbts : sz < op.buffer.getD op.buffer_offset 0 + 1
      · have hres : (psa_pake_output_core w op step sz).2.1 = (psa_pake_abort op).2 := by
          simp [psa_pake_output_core, hm, hsq, hdc, hbts, -List.getD_eq_getElem?_getD]
        rw [hres]; exact pakeInvFull_abort_any _ halg
      have hres : (psa_pake_output_core w op step sz).2.1 =
          { op with buffer_offset :=
                      op.buffer_offset + (op.buffer.getD op.buffer_offset 0 + 1),
                    sequence := .X1_ZK_PROOF } := by
        simp [psa_pake_output_core, hm, hsq, hs, hdc, hbts, seqNext,
          -List.getD_eq_getElem?_getD]
      rw [hres]
      refine ⟨Or.inr halg, hbl, hlen, hadv, fun hx => ?_, fun _ => ?_,
        fun _ hB => absurd hs hB⟩
      · rw [hs] at hx; exact PakeState.noConfusion hx
      · exact ⟨by simp [seqIdx], by simp [seqIdx], fun _ => hwk2⟩
    | X1_ZK_PROOF =>
      rw [hsq] at hm
      by_cases hdc : op.buffer_length < op.buffer.getD op.buffer_offset 0 + 1
      · have hres : (psa_pake_output_core w op step sz).2.1 = op := by
          simp [psa_pake_output_core, hm, hsq, hdc, -List.getD_eq_getElem?_getD]
        rw [hres]; exact hORIG
      by_cases hbts : sz < op.buffer.getD op.buffer_offset 0 + 1
      · have hres : (psa_pake_output_core w op step sz).2.1 = (psa_pake_abort op).2 := by
          simp [psa_pake_output_core, hm, hsq, hdc, hbts, -List.getD_eq_getElem?_getD]
        rw [hres]; exact pakeInvFull_abort_any _ halg
      have hres : (psa_pake_output_core w op step sz).2.1 =
          { op with buffer := pakeZeroBuffer, buffer_length := 0,
                    buffer_offset := 0, state := .READY,
                    output_step := roundStepNext op.output_step,
                    sequence := .SEQ_INVALID } := by
        simp [psa_pake_output_core, hm, hsq, hs, hdc, hbts,
          -List.getD_eq_getElem?_getD]
      rw [hres]
      exact ⟨Or.inr halg, by simp [pakeZeroBuffer], Nat.zero_le _, Nat.le_refl _,
        fun hx => PakeState.noConfusion hx, fun hx => PakeState.noConfusion hx,
        fun _ _ => rfl⟩


/-- Dispatching a READY handle into round-one output. -/
theorem psa_pake_output_staged_dispatch_x1x2 (w : RoundWriteEnv) (op : PakeOp)
    (sz : Nat) (hr : op.state = .READY) (hout : op.output_step = .STEP_X1_X2) :
    psa_pake_output_staged w op PSA_PAKE_STEP_KEY_SHARE sz =
      psa_pake_output_core w
        { op with state := .OUTPUT_X1_X2, sequence := .X1_KEY_SHARE }
        PSA_PAKE_STEP_KEY_SHARE sz := by
  simp [psa_pake_output_staged, hr, hout]

/-- Dispatching a READY handle into round-two output. -/
theorem psa_pake_output_staged_dispatch_x2s (w : RoundWriteEnv) (op : PakeOp)
    (sz : Nat) (hr : op.state = .READY) (hout : op.output_step = .STEP_X2S) :
    psa_pake_output_staged w op PSA_PAKE_STEP_KEY_SHARE sz =
      psa_pake_output_core w
        { op with state := .OUTPUT_X2S, sequence := .X1_KEY_SHARE }
        PSA_PAKE_STEP_KEY_SHARE sz := by
  simp [psa_pake_output_staged, hr, hout]

/-- The invariant is preserved by the staged output path, assuming the engine
framing contract. -/
theorem pakeInvFull_output_staged (w : RoundWriteEnv) (op : PakeOp)
    (step sz : Nat) (h : PakeInvFull op) (halg : op.alg = .JPAKE)
    (hc : roundWriteContract op w) :
    PakeInvFull (psa_pake_output_staged w op step sz).2.1 := by
  by_cases hel : op.state = .READY ∨ op.state = .OUTPUT_X1_X2 ∨ op.state = .OUTPUT_X2S
  case neg =>
    simp [psa_pake_output_staged, hel]
    exact h
  rcases hel with hr | hst | hst
  · have hoff0 : op.buffer_offset = 0 :=
      h.2.2.2.2.2.2 (by rw [hr]; decide) (by rw [hr]; decide)
    by_cases hks : step = PSA_PAKE_STEP_KEY_SHARE
    · cases hout : op.output_step with
      | STEP_X1_X2 =>
        rw [hks, psa_pake_output_staged_dispatch_x1x2 w op sz hr hout]
        refine pakeInvFull_output_core w _ _ sz
          ⟨h.1, h.2.1, h.2.2.1, h.2.2.2.1,
            fun _ => ⟨by simp [seqIdx], by simp [seqIdx],
              fun h2 => absurd h2 (by simp [seqIdx])⟩,
            fun hx => PakeState.noConfusion hx, fun hA _ => absurd rfl hA⟩
          halg (Or.inl rfl) (fun _ _ hw => (hc hw).1 (Or.inr ⟨Or.inr hr, hout⟩))
          (fun hx _ _ => PakeState.noConfusion hx)
      | STEP_X2S =>
        rw [hks, psa_pake_output_staged_dispatch_x2s w op sz hr hout]
        refine pakeInvFull_output_core w _ _ sz
          ⟨h.1, h.2.1, h.2.2.1, h.2.2.2.1,
            fun hx => PakeState.noConfusion hx,
            fun _ => ⟨by simp [seqIdx], by simp [seqIdx],
              fun h2 => absurd h2 (by simp [seqIdx])⟩,
            fun _ hB => absurd rfl hB⟩
          halg (Or.inr rfl) (fun hx _ _ => PakeState.noConfusion hx)
          (fun _ _ hw => (hc hw).2 (Or.inr ⟨Or.inr hr, hout⟩))
      | STEP_INVALID =>
        simp [psa_pake_output_staged, hr, hks, hout]
        exact h
      | STEP_DERIVE =>
        simp [psa_pake_output_staged, hr, hks, hout]
        exact h
    · simp [psa_pake_output_staged, hr, hks]
      exact h
  · have heq : psa_pake_output_staged w op step sz =
        psa_pake_output_core w op step sz := by
      simp [psa_pake_output_staged, hst]
    rw [heq]
    refine pakeInvFull_output_core w op step sz h halg (Or.inl hst)
      (fun _ hseq hw => (hc hw).1 (Or.inl ⟨hst, hseq⟩)) (fun hx _ _ => ?_)
    rw [hst] at hx
    exact PakeState.noConfusion hx
  · have heq : psa_pake_output_staged w op step sz =
        psa_pake_output_core w op step sz := by
      simp [psa_pake_output_staged, hst]
    rw [heq]
    refine pakeInvFull_output_core w op step sz h halg (Or.inr hst)
      (fun hx _ _ => ?_) (fun _ hseq hw => (hc hw).2 (Or.inl ⟨hst, hseq⟩))
    rw [hst] at hx
    exact PakeState.noConfusion hx

/-- The engine framing contract survives the lazy engine initialization. -/
theorem roundWriteContract_ecjpake_setup (envS : EcjSetupEnv) (op : PakeOp)
    (w : RoundWriteEnv) (hst : op.state = .SETUP)
    (hc : roundWriteContract op w) :
    roundWriteContract (psa_pake_ecjpake_setup envS op).2 w := by
  unfold psa_pake_ecjpake_setup
  split_ifs <;>
    first
      | exact hc
      | (intro hw
         obtain ⟨hc1, hc2⟩ := hc hw
         refine ⟨fun hcond => hc1 ?_, fun hcond => hc2 ?_⟩
         · rcases hcond with ⟨hx, _⟩ | ⟨_, hos⟩
           · exact absurd hx (by simp)
           · exact Or.inr ⟨Or.inl hst, hos⟩
         · rcases hcond with ⟨hx, _⟩ | ⟨_, hos⟩
           · exact absurd hx (by simp)
           · exact Or.inr ⟨Or.inl hst, hos⟩)

/-- The invariant is preserved by `psa_pake_output` under the engine framing
contract. -/
theorem pakeInvFull_output (env : OutputEnv) (op : PakeOp) (step sz : Nat)
    (h : PakeInvFull op) (hc : roundWriteContract op env.write) :
    PakeInvFull (psa_pake_output env op step sz).2.1 := by
  unfold psa_pake_output
  by_cases hg1 : op.alg = .NONE ∨ op.state = .INVALID
  · rw [if_pos hg1]; exact h
  rw [if_neg hg1]
  by_cases hg2 : sz = 0
  · rw [if_pos hg2]; exact h
  rw [if_neg hg2]
  by_cases hja : op.alg = .JPAKE
  case neg => rw [if_neg hja]; exact h
  rw [if_pos hja]
  by_cases hvs : validPakeStep step
  case neg => rw [if_pos hvs]; exact h
  rw [if_neg (not_not_intro hvs)]
  by_cases hsetup : op.state = .SETUP
  case neg =>
    rw [if_neg hsetup]
    exact pakeInvFull_output_staged env.write op step sz h hja hc
  rw [if_pos hsetup]
  have hfull1 := pakeInvFull_ecjpake_setup env.setup op h hsetup
  have halg1 : (psa_pake_ecjpake_setup env.setup op).2.alg = .JPAKE := by
    rw [psa_pake_ecjpake_setup_alg]; exact hja
  have hc1 := roundWriteContract_ecjpake_setup env.setup op env.write hsetup hc
  cases hres : psa_pake_ecjpake_setup env.setup op with
  | mk st op1 =>
    rw [hres] at hfull1 halg1 hc1
    cases st <;>
      first
        | exact pakeInvFull_output_staged env.write op1 step sz hfull1 halg1 hc1
        | exact pakeInvFull_abort op1 hfull1


/-- C2: for every reachable PakeOp handle — i.e. at entry and exit of every
public call (`psa_pake_setup`, `psa_pake_set_password_key`,
`psa_pake_set_role`, `psa_pake_output`, `psa_pake_input`,
`psa_pake_get_implicit_key`, `psa_pake_abort`), since each boundary state is
the result of the previous call on a reachable state — the invariant
`buffer_offset ≤ buffer_length ≤ capacity(buffer)` holds, where the capacity
is the fixed size `PSA_PAKE_BUFFER_SIZE` of the staging array.  The engine
write oracle is assumed to honour its framing contract
(`roundWriteContract`, spec §6.2-6.3), as recorded in `PakeReachable`. -/
theorem pake_reachable_buffer_invariant (op : PakeOp) (h : PakeReachable op) :
    op.buffer_offset ≤ op.buffer_length ∧
    op.buffer_length ≤ PSA_PAKE_BUFFER_SIZE ∧
    op.buffer.length = PSA_PAKE_BUFFER_SIZE := by
  have hfull : PakeInvFull op := by
    induction h with
    | init => exact pakeInvFull_init
    | setup op cs _ ih => exact pakeInvFull_setup op cs ih
    | set_password_key env op pw _ ih =>
      exact pakeInvFull_set_password_key env op pw ih
    | set_role op role _ ih => exact pakeInvFull_set_role op role ih
    | output env op step sz _ hc ih => exact pakeInvFull_output env op step sz ih hc
    | input env op step inp _ ih => exact pakeInvFull_input env op step inp ih
    | get_implicit_key env op _ ih => exact pakeInvFull_get_implicit_key env op ih
    | abort op _ ih => exact pakeInvFull_abort op ih
  exact ⟨hfull.2.2.2.1, hfull.2.2.1, hfull.2.1⟩

/-- Witness for C2: the invariant chain at a concrete reachable handle, one
that just completed a successful `psa_pake_setup`. -/
theorem pake_reachable_buffer_invariant_witness :
    (psa_pake_setup PSA_PAKE_OPERATION_INIT
        (some { algorithm := .JPAKE, ptype := PSA_PAKE_PRIMITIVE_TYPE_ECC,
                family := PSA_ECC_FAMILY_SECP_R1, bits := 256,
                hash := .SHA_256 })).2.buffer_offset ≤
      (psa_pake_setup PSA_PAKE_OPERATION_INIT
        (some { algorithm := .JPAKE, ptype := PSA_PAKE_PRIMITIVE_TYPE_ECC,
                family := PSA_ECC_FAMILY_SECP_R1, bits := 256,
                hash := .SHA_256 })).2.buffer_length ∧
    (psa_pake_setup PSA_PAKE_OPERATION_INIT
        (some { algorithm := .JPAKE, ptype := PSA_PAKE_PRIMITIVE_TYPE_ECC,
                family := PSA_ECC_FAMILY_SECP_R1, bits := 256,
                hash := .SHA_256 })).2.buffer_length ≤ PSA_PAKE_BUFFER_SIZE ∧
    (psa_pake_setup PSA_PAKE_OPERATION_INIT
        (some { algorithm := .JPAKE, ptype := PSA_PAKE_PRIMITIVE_TYPE_ECC,
                family := PSA_ECC_FAMILY_SECP_R1, bits := 256,
                hash := .SHA_256 })).2.buffer.length = PSA_PAKE_BUFFER_SIZE :=
  pake_reachable_buffer_invariant _
    (PakeReachable.setup PSA_PAKE_OPERATION_INIT _ PakeReachable.init)

end MbedSpec
